import Mathlib

/-!
Shallow embedding of the particle emitter in `ParticleEmitter.cpp`
(SocksAndSandalsGraphicsEngine).

Modelling conventions:
- Per-frame times, sizes, colours and the emission timer are embedded as
  exact rationals (the C++ uses `float`; rational arithmetic keeps every
  branch condition of the code decidable).
- Spatial vectors (particle positions, velocities, staged vertex positions)
  are embedded as real 3- / 4-vectors because `glm::normalize` divides by a
  euclidean norm, which is irrational in general.
- `rand()` is embedded as an injectable stream `rng : ℕ → ℚ` of already
  divided samples `rand() / RAND_MAX ∈ [0,1]`, together with a stream index
  `rngIdx` in the state; `emit` consumes five samples in the order the code
  calls `rand()`.
- The OpenGL buffers are mirrored in the state: `vertexData` is the staging
  array `m_vertexData`, `deviceVB` the contents of `m_vbo`, `indexBuffer`
  the contents of `m_ibo`.
- Ghost instrumentation (not observable by the code, used only to state
  properties): `emitCalls` counts calls of `emit()` made by the emission
  loop, `quadCount` is the value of the local variable `quad` at the end of
  the last sweep, and `writeLog` records the staging-array record indices
  written by the sweep.
-/

noncomputable section

/-- Real 3-vector, mirroring `glm::vec3`. -/
structure Vec3 where
  x : ℝ
  y : ℝ
  z : ℝ

instance : Add Vec3 := ⟨fun a b => ⟨a.x + b.x, a.y + b.y, a.z + b.z⟩⟩

instance : Sub Vec3 := ⟨fun a b => ⟨a.x - b.x, a.y - b.y, a.z - b.z⟩⟩

instance : SMul ℝ Vec3 := ⟨fun c v => ⟨c * v.x, c * v.y, c * v.z⟩⟩

/-- Euclidean dot product on `Vec3`. -/
def Vec3.dot (a b : Vec3) : ℝ := a.x * b.x + a.y * b.y + a.z * b.z

/-- Cross product, as `glm::cross`. -/
def Vec3.cross (a b : Vec3) : Vec3 :=
  ⟨a.y * b.z - a.z * b.y, a.z * b.x - a.x * b.z, a.x * b.y - a.y * b.x⟩

/-- `glm::normalize`: scale by the inverse euclidean norm.  (In Lean the
zero vector is sent to zero, since `(0 : ℝ)⁻¹ = 0`.) -/
def Vec3.normalize (v : Vec3) : Vec3 := (Real.sqrt (Vec3.dot v v))⁻¹ • v

/-- Real 4-vector, mirroring `glm::vec4` in its homogeneous-position role. -/
structure Vec4 where
  x : ℝ
  y : ℝ
  z : ℝ
  w : ℝ

instance : Add Vec4 := ⟨fun a b => ⟨a.x + b.x, a.y + b.y, a.z + b.z, a.w + b.w⟩⟩

instance : SMul ℝ Vec4 := ⟨fun c v => ⟨c * v.x, c * v.y, c * v.z, c * v.w⟩⟩

/-- `glm::vec4(v, 0)`: embed a 3-vector with `w = 0`. -/
def Vec4.of3 (v : Vec3) : Vec4 := ⟨v.x, v.y, v.z, 0⟩

/-- `glm::vec3(v)`: drop the `w` component. -/
def Vec4.vec3 (v : Vec4) : Vec3 := ⟨v.x, v.y, v.z⟩

/-- Rational 4-vector, mirroring `glm::vec4` in its RGBA-colour role. -/
structure Vec4q where
  x : ℚ
  y : ℚ
  z : ℚ
  w : ℚ
deriving DecidableEq

/-- `glm::mat4` given by its four columns (glm is column-major); only used
for the camera transform and the billboard matrix. -/
structure Mat4 where
  c0 : Vec4
  c1 : Vec4
  c2 : Vec4
  c3 : Vec4

/-- Column-major matrix–vector product, as `glm` `operator*`. -/
def Mat4.mulVec (m : Mat4) (v : Vec4) : Vec4 :=
  v.x • m.c0 + v.y • m.c1 + v.z • m.c2 + v.w • m.c3

/-- `glm::mix(a, b, t) = a + t * (b - a)` on scalars. -/
def mixQ (a b t : ℚ) : ℚ := a + t * (b - a)

/-- `glm::mix` on colour 4-vectors, componentwise. -/
def mixV4 (a b : Vec4q) (t : ℚ) : Vec4q :=
  ⟨mixQ a.x b.x t, mixQ a.y b.y t, mixQ a.z b.z t, mixQ a.w b.w t⟩

/-- The `Particle` record of `ParticleEmitter.h`. -/
structure Particle where
  position : Vec3
  velocity : Vec3
  lifetime : ℚ
  lifespan : ℚ
  size : ℚ
  colour : Vec4q

/-- Default particle contents (the pool is default-initialised). -/
def Particle.zero : Particle := ⟨⟨0, 0, 0⟩, ⟨0, 0, 0⟩, 0, 0, 0, ⟨0, 0, 0, 0⟩⟩

/-- The `ParticleVertex` record: homogeneous position plus colour. -/
structure ParticleVertex where
  position : Vec4
  colour : Vec4q

/-- Default vertex contents. -/
def ParticleVertex.zero : ParticleVertex := ⟨⟨0, 0, 0, 0⟩, ⟨0, 0, 0, 0⟩⟩

/-- The configuration members of `ParticleEmitter`, all written exactly once
by `initialise` and read-only afterwards.  `emitRate` is the member
`m_emitRate`, which stores the emission interval `1 / a_emitRate`. -/
structure EmitterConfig where
  maxParticles : ℕ
  emitRate : ℚ
  lifespanMin : ℚ
  lifespanMax : ℚ
  velocityMin : ℚ
  velocityMax : ℚ
  startSize : ℚ
  endSize : ℚ
  startColour : Vec4q
  endColour : Vec4q

/-- The mutable members of `ParticleEmitter`, plus the mirrored device
buffers and the ghost instrumentation fields. -/
structure EmitterState where
  particles : List Particle
  firstDead : ℕ
  position : Vec3
  emitTimer : ℚ
  vertexData : List ParticleVertex
  deviceVB : List ParticleVertex
  indexBuffer : List ℕ
  rngIdx : ℕ
  emitCalls : ℕ
  quadCount : ℕ
  writeLog : List ℕ

/-- Parameters of the `glDrawElements`/`glBufferSubData` pair issued by
`draw()`: how many vertex records are uploaded and how many indices drawn. -/
structure DrawCall where
  vertexUploadCount : ℕ
  indexCount : ℕ
deriving DecidableEq

/-- The index-buffer fill loop of `initialise`: for each quad slot `i` the
six indices `4i, 4i+1, 4i+2, 4i, 4i+2, 4i+3`. -/
def indexDataFor : ℕ → List ℕ
  | 0 => []
  | n + 1 =>
      indexDataFor n ++
        [n * 4, n * 4 + 1, n * 4 + 2, n * 4, n * 4 + 2, n * 4 + 3]

namespace ParticleEmitter

/-- `ParticleEmitter::initialise`.  Returns the immutable configuration and
the initial mutable state.  `m_emitRate = 1.0f / a_emitRate`; the pool and
the staging array are allocated at sizes `maxParticles` and
`maxParticles * 4`; the index buffer is pre-filled; `m_position` is `(0,0,0)`
from the constructor. -/
def initialise (maxParticles emitRateParam : ℕ)
    (lifetimeMin lifetimeMax velocityMin velocityMax startSize endSize : ℚ)
    (startColour endColour : Vec4q) : EmitterConfig × EmitterState :=
  (⟨maxParticles, 1 / (emitRateParam : ℚ), lifetimeMin, lifetimeMax,
      velocityMin, velocityMax, startSize, endSize, startColour, endColour⟩,
   { particles := List.replicate maxParticles Particle.zero
     firstDead := 0
     position := ⟨0, 0, 0⟩
     emitTimer := 0
     vertexData := List.replicate (maxParticles * 4) ParticleVertex.zero
     deviceVB := List.replicate (maxParticles * 4) ParticleVertex.zero
     indexBuffer := indexDataFor maxParticles
     rngIdx := 0
     emitCalls := 0
     quadCount := 0
     writeLog := [] })

/-- `ParticleEmitter::emit`.  No-op when the pool is saturated; otherwise
claims slot `firstDead`, increments it, and fills the particle.  The five
`rand()` calls happen in source order: lifespan, speed, `velocity.x`,
`velocity.y`, `velocity.z`. -/
def emit (rng : ℕ → ℚ) (cfg : EmitterConfig) (e : EmitterState) : EmitterState :=
  if e.firstDead ≥ cfg.maxParticles then e
  else
    let lifespan : ℚ :=
      rng e.rngIdx * (cfg.lifespanMax - cfg.lifespanMin) + cfg.lifespanMin
    let speed : ℚ :=
      rng (e.rngIdx + 1) * (cfg.velocityMax - cfg.velocityMin) + cfg.velocityMin
    let dir : Vec3 :=
      ⟨((rng (e.rngIdx + 2) * 2 - 1 : ℚ) : ℝ),
       ((rng (e.rngIdx + 3) * 2 - 1 : ℚ) : ℝ),
       ((rng (e.rngIdx + 4) * 2 - 1 : ℚ) : ℝ)⟩
    let p : Particle :=
      { position := e.position
        velocity := ((speed : ℚ) : ℝ) • Vec3.normalize dir
        lifetime := 0
        lifespan := lifespan
        size := cfg.startSize
        colour := cfg.startColour }
    { e with
        particles := e.particles.set e.firstDead p
        firstDead := e.firstDead + 1
        rngIdx := e.rngIdx + 5 }

/-- The emission loop of `update`:
`while (m_emitTimer > m_emitRate) { emit(); m_emitTimer -= m_emitRate; }`.
The positivity of the interval (a documented precondition: the loop would
not terminate otherwise) is carried as a proof argument.  `emit` never
touches `m_emitTimer`, so the decrement is written against the entry
timer. -/
def emitLoop (rng : ℕ → ℚ) (cfg : EmitterConfig) (hr : 0 < cfg.emitRate)
    (e : EmitterState) : EmitterState :=
  if e.emitTimer > cfg.emitRate then
    emitLoop rng cfg hr
      { emit rng cfg e with
          emitTimer := e.emitTimer - cfg.emitRate
          emitCalls := e.emitCalls + 1 }
  else e
termination_by Nat.ceil (e.emitTimer / cfg.emitRate)
decreasing_by
  have hx : 1 < e.emitTimer / cfg.emitRate := (one_lt_div hr).mpr (by assumption)
  have h1 : 1 < Nat.ceil (e.emitTimer / cfg.emitRate) := by
    rw [Nat.lt_ceil]; exact_mod_cast hx
  have h2 : (e.emitTimer - cfg.emitRate) / cfg.emitRate =
      e.emitTimer / cfg.emitRate - 1 := by
    rw [sub_div, div_self (ne_of_gt hr)]
  have h3 : Nat.ceil ((e.emitTimer - cfg.emitRate) / cfg.emitRate) ≤
      Nat.ceil (e.emitTimer / cfg.emitRate) - 1 := by
    rw [Nat.ceil_le, h2]
    have h4 : e.emitTimer / cfg.emitRate ≤ Nat.ceil (e.emitTimer / cfg.emitRate) :=
      Nat.le_ceil _
    have h5 : ((Nat.ceil (e.emitTimer / cfg.emitRate) - 1 : ℕ) : ℚ) =
        (Nat.ceil (e.emitTimer / cfg.emitRate) : ℚ) - 1 := by
      have := Nat.one_le_iff_ne_zero.mp (le_of_lt h1)
      push_cast [Nat.cast_sub (le_of_lt h1)]
      ring
    rw [h5]
    linarith
  omega

/-- The four local quad corners written first by the sweep:
`(±halfSize, ±halfSize, 0, 1)` with the particle's current colour, in source
order `0 ↦ (+,+), 1 ↦ (−,+), 2 ↦ (−,−), 3 ↦ (+,−)`. -/
def localVert (p : Particle) (k : ℕ) : ParticleVertex :=
  let halfSize : ℝ := ((p.size / 2 : ℚ) : ℝ)
  match k with
  | 0 => ⟨⟨halfSize, halfSize, 0, 1⟩, p.colour⟩
  | 1 => ⟨⟨-halfSize, halfSize, 0, 1⟩, p.colour⟩
  | 2 => ⟨⟨-halfSize, -halfSize, 0, 1⟩, p.colour⟩
  | _ => ⟨⟨halfSize, -halfSize, 0, 1⟩, p.colour⟩

/-- The billboard matrix built by the sweep for a particle at `pos`:
`zAxis = normalize(camera position − pos)`, `xAxis = cross(camera up, zAxis)`,
`yAxis = cross(zAxis, xAxis)`, fourth column `(0,0,0,1)`. -/
def billboardMat (cam : Mat4) (pos : Vec3) : Mat4 :=
  let zAxis := Vec3.normalize (Vec4.vec3 cam.c3 - pos)
  let xAxis := Vec3.cross (Vec4.vec3 cam.c1) zAxis
  let yAxis := Vec3.cross zAxis xAxis
  ⟨Vec4.of3 xAxis, Vec4.of3 yAxis, Vec4.of3 zAxis, ⟨0, 0, 0, 1⟩⟩

/-- The in-place transform the sweep applies to each staged vertex:
`position = billboard * position + vec4(particle position, 0)`. -/
def transformVert (cam : Mat4) (pos : Vec3) (v : ParticleVertex) : ParticleVertex :=
  { v with position := (billboardMat cam pos).mulVec v.position + Vec4.of3 pos }

/-- The net vertex the sweep leaves in staging slot `4 * quad + k` for a
surviving particle `p`: the local corner transformed by the billboard. -/
def synthVert (cam : Mat4) (p : Particle) (k : ℕ) : ParticleVertex :=
  transformVert cam p.position (localVert p k)

/-- The per-particle sweep of `update` (source lines 185–242): ages the
particle at slot `i`; on death overwrites slot `i` with the particle at
`firstDead - 1` and decrements `firstDead` (the loop then continues at
`i + 1`); on survival moves the particle, interpolates size and colour, and
writes the billboard quad into staging records `quad*4 … quad*4+3` (first
the local corners, then the in-place billboard transform, exactly as the
code does).  The ghost `quadCount` plays the local variable `quad`;
`writeLog` records the written staging indices. -/
def updateLoop (cfg : EmitterConfig) (cam : Mat4) (dt : ℚ) (i : ℕ)
    (e : EmitterState) : EmitterState :=
  if h : i < e.firstDead then
    let p0 := e.particles.getD i Particle.zero
    let p1 := { p0 with lifetime := p0.lifetime + dt }
    let ps1 := e.particles.set i p1
    if p1.lifetime ≥ p1.lifespan then
      updateLoop cfg cam dt (i + 1)
        { e with
            particles := ps1.set i (ps1.getD (e.firstDead - 1) Particle.zero)
            firstDead := e.firstDead - 1 }
    else
      let p2 : Particle :=
        { p1 with
            position := p1.position + ((dt : ℚ) : ℝ) • p1.velocity
            size := mixQ cfg.startSize cfg.endSize (p1.lifetime / p1.lifespan)
            colour := mixV4 cfg.startColour cfg.endColour (p1.lifetime / p1.lifespan) }
      let q := e.quadCount
      let vd1 :=
        (((e.vertexData.set (q * 4) (localVert p2 0)).set (q * 4 + 1)
              (localVert p2 1)).set (q * 4 + 2) (localVert p2 2)).set
          (q * 4 + 3) (localVert p2 3)
      let vd2 :=
        (((vd1.set (q * 4)
                (transformVert cam p2.position (vd1.getD (q * 4) ParticleVertex.zero))).set
              (q * 4 + 1)
              (transformVert cam p2.position (vd1.getD (q * 4 + 1) ParticleVertex.zero))).set
            (q * 4 + 2)
            (transformVert cam p2.position (vd1.getD (q * 4 + 2) ParticleVertex.zero))).set
          (q * 4 + 3)
          (transformVert cam p2.position (vd1.getD (q * 4 + 3) ParticleVertex.zero))
      updateLoop cfg cam dt (i + 1)
        { e with
            particles := ps1.set i p2
            vertexData := vd2
            quadCount := q + 1
            writeLog := e.writeLog ++ [q * 4, q * 4 + 1, q * 4 + 2, q * 4 + 3] }
  else e
termination_by e.firstDead - i
decreasing_by
  all_goals simp_all
  all_goals omega

/-- `ParticleEmitter::update`: accumulate `dt` into the emission timer, run
the emission loop, then run the sweep from slot `0` with `quad = 0`. -/
def update (rng : ℕ → ℚ) (cfg : EmitterConfig) (hr : 0 < cfg.emitRate)
    (dt : ℚ) (cam : Mat4) (e : EmitterState) : EmitterState :=
  updateLoop cfg cam dt 0
    { emitLoop rng cfg hr { e with emitTimer := e.emitTimer + dt } with
        quadCount := 0 }

/-- `ParticleEmitter::draw`: `glBufferSubData` overwrites the first
`firstDead * 4` records of the device vertex buffer with the staging prefix
(a sub-range write, the rest of the allocation is untouched), then
`glDrawElements` draws `firstDead * 6` indices. -/
def draw (e : EmitterState) : EmitterState × DrawCall :=
  ({ e with
      deviceVB :=
        e.vertexData.take (e.firstDead * 4) ++ e.deviceVB.drop (e.firstDead * 4) },
   ⟨e.firstDead * 4, e.firstDead * 6⟩)

/-- The number of iterations of the emission loop, mirrored as a scalar
recursion on the timer: how many `emit()` calls one `update` performs. -/
def timerCount (rate : ℚ) (hr : 0 < rate) (t : ℚ) : ℕ :=
  if t > rate then timerCount rate hr (t - rate) + 1 else 0
termination_by Nat.ceil (t / rate)
decreasing_by
  have hx : 1 < t / rate := (one_lt_div hr).mpr (by assumption)
  have h1 : 1 < Nat.ceil (t / rate) := by
    rw [Nat.lt_ceil]; exact_mod_cast hx
  have h2 : (t - rate) / rate = t / rate - 1 := by
    rw [sub_div, div_self (ne_of_gt hr)]
  have h3 : Nat.ceil ((t - rate) / rate) ≤ Nat.ceil (t / rate) - 1 := by
    rw [Nat.ceil_le, h2]
    have h4 : t / rate ≤ Nat.ceil (t / rate) := Nat.le_ceil _
    have h5 : ((Nat.ceil (t / rate) - 1 : ℕ) : ℚ) = (Nat.ceil (t / rate) : ℚ) - 1 := by
      push_cast [Nat.cast_sub (le_of_lt h1)]
      ring
    rw [h5]
    linarith
  omega

/-- A frame-level operation on the emitter, for stating invariants over
arbitrary call sequences. -/
inductive Op where
  | emitOp : Op
  | updateOp : ℚ → Mat4 → Op
  | drawOp : Op

/-- Apply one operation. -/
def applyOp (rng : ℕ → ℚ) (cfg : EmitterConfig) (hr : 0 < cfg.emitRate) :
    Op → EmitterState → EmitterState
  | Op.emitOp, e => emit rng cfg e
  | Op.updateOp dt cam, e => update rng cfg hr dt cam e
  | Op.drawOp, e => (draw e).1

/-- Apply a sequence of operations, oldest first. -/
def applyOps (rng : ℕ → ℚ) (cfg : EmitterConfig) (hr : 0 < cfg.emitRate)
    (ops : List Op) (e : EmitterState) : EmitterState :=
  ops.foldl (fun s op => applyOp rng cfg hr op s) e

/-- Run a sequence of `update` calls with the given per-frame `dt` values. -/
def runUpdates (rng : ℕ → ℚ) (cfg : EmitterConfig) (hr : 0 < cfg.emitRate)
    (cam : Mat4) (dts : List ℚ) (e : EmitterState) : EmitterState :=
  dts.foldl (fun s dt => update rng cfg hr dt cam s) e

/-- The emission loop's effect on the timer alone, mirrored as a scalar
recursion: the timer dynamics do not depend on the pool at all. -/
def timerRun (rate : ℚ) (hr : 0 < rate) (t : ℚ) : ℚ :=
  if t > rate then timerRun rate hr (t - rate) else t
termination_by Nat.ceil (t / rate)
decreasing_by
  have hx : 1 < t / rate := (one_lt_div hr).mpr (by assumption)
  have h1 : 1 < Nat.ceil (t / rate) := by
    rw [Nat.lt_ceil]; exact_mod_cast hx
  have h2 : (t - rate) / rate = t / rate - 1 := by
    rw [sub_div, div_self (ne_of_gt hr)]
  have h3 : Nat.ceil ((t - rate) / rate) ≤ Nat.ceil (t / rate) - 1 := by
    rw [Nat.ceil_le, h2]
    have h4 : t / rate ≤ Nat.ceil (t / rate) := Nat.le_ceil _
    have h5 : ((Nat.ceil (t / rate) - 1 : ℕ) : ℚ) = (Nat.ceil (t / rate) : ℚ) - 1 := by
      push_cast [Nat.cast_sub (le_of_lt h1)]
      ring
    rw [h5]
    linarith
  omega

/-- The particle the unsaturated branch of `emit` writes into slot
`firstDead` (a view of the body of `emit`, used to state its contract). -/
def emittedParticle (rng : ℕ → ℚ) (cfg : EmitterConfig) (e : EmitterState) : Particle :=
  { position := e.position
    velocity :=
      ((rng (e.rngIdx + 1) * (cfg.velocityMax - cfg.velocityMin) + cfg.velocityMin : ℚ) : ℝ) •
        Vec3.normalize
          ⟨((rng (e.rngIdx + 2) * 2 - 1 : ℚ) : ℝ),
           ((rng (e.rngIdx + 3) * 2 - 1 : ℚ) : ℝ),
           ((rng (e.rngIdx + 4) * 2 - 1 : ℚ) : ℝ)⟩
    lifetime := 0
    lifespan := rng e.rngIdx * (cfg.lifespanMax - cfg.lifespanMin) + cfg.lifespanMin
    size := cfg.startSize
    colour := cfg.startColour }

/-- The particle at slot `i` after the sweep has aged it by `dt`
(`particle->lifetime += a_deltaTime`). -/
def agedAt (dt : ℚ) (i : ℕ) (e : EmitterState) : Particle :=
  { e.particles.getD i Particle.zero with
      lifetime := (e.particles.getD i Particle.zero).lifetime + dt }

/-- The state the sweep hands to iteration `i + 1` when the aged particle at
slot `i` retires: slot `i` is overwritten with the particle at
`firstDead - 1` (read after the aging write), and `firstDead` drops by one.
A view of the retire branch of `updateLoop`, proved equal to it below. -/
def retireStateAt (dt : ℚ) (i : ℕ) (e : EmitterState) : EmitterState :=
  { e with
      particles :=
        (e.particles.set i (agedAt dt i e)).set i
          ((e.particles.set i (agedAt dt i e)).getD (e.firstDead - 1) Particle.zero)
      firstDead := e.firstDead - 1 }

/-- The surviving particle at slot `i` after the sweep has moved it and
interpolated its size and colour. -/
def survivorAt (cfg : EmitterConfig) (dt : ℚ) (i : ℕ) (e : EmitterState) : Particle :=
  { agedAt dt i e with
      position :=
        (agedAt dt i e).position + ((dt : ℚ) : ℝ) • (agedAt dt i e).velocity
      size :=
        mixQ cfg.startSize cfg.endSize
          ((agedAt dt i e).lifetime / (agedAt dt i e).lifespan)
      colour :=
        mixV4 cfg.startColour cfg.endColour
          ((agedAt dt i e).lifetime / (agedAt dt i e).lifespan) }

/-- The sweep's two-pass write of quad `q` for particle `p` into the staging
array: first the four local corners, then the in-place billboard transform
of each just-written record. -/
def stagedQuadWrite (cam : Mat4) (p : Particle) (q : ℕ)
    (vd : List ParticleVertex) : List ParticleVertex :=
  let vd1 :=
    (((vd.set (q * 4) (localVert p 0)).set (q * 4 + 1) (localVert p 1)).set
          (q * 4 + 2) (localVert p 2)).set (q * 4 + 3) (localVert p 3)
  (((vd1.set (q * 4)
          (transformVert cam p.position (vd1.getD (q * 4) ParticleVertex.zero))).set
        (q * 4 + 1)
        (transformVert cam p.position (vd1.getD (q * 4 + 1) ParticleVertex.zero))).set
      (q * 4 + 2)
      (transformVert cam p.position (vd1.getD (q * 4 + 2) ParticleVertex.zero))).set
    (q * 4 + 3)
    (transformVert cam p.position (vd1.getD (q * 4 + 3) ParticleVertex.zero))

/-- The state the sweep hands to iteration `i + 1` when the aged particle at
slot `i` survives.  A view of the survive branch of `updateLoop`, proved
equal to it below. -/
def surviveStateAt (cfg : EmitterConfig) (cam : Mat4) (dt : ℚ) (i : ℕ)
    (e : EmitterState) : EmitterState :=
  { e with
      particles :=
        (e.particles.set i (agedAt dt i e)).set i (survivorAt cfg dt i e)
      vertexData :=
        stagedQuadWrite cam (survivorAt cfg dt i e) e.quadCount e.vertexData
      quadCount := e.quadCount + 1
      writeLog :=
        e.writeLog ++
          [e.quadCount * 4, e.quadCount * 4 + 1, e.quadCount * 4 + 2,
            e.quadCount * 4 + 3] }

/-- Claim C1's staged-range property, as stated: every staged quad in the
range `[0, firstDead)` is the quad synthesized this frame for some
still-live particle (one with `lifetime < lifespan`). -/
def StagingFresh (cam : Mat4) (e : EmitterState) : Prop :=
  ∀ j < e.firstDead, ∃ m < e.firstDead,
    (e.particles.getD m Particle.zero).lifetime <
        (e.particles.getD m Particle.zero).lifespan ∧
    ∀ k < 4,
      e.vertexData.getD (j * 4 + k) ParticleVertex.zero =
        ParticleEmitter.synthVert cam (e.particles.getD m Particle.zero) k

/-- The corrected staged-range property: only the first `quadCount` quads
(the ones written this frame) are guaranteed fresh. -/
def FreshPrefix (cam : Mat4) (e : EmitterState) : Prop :=
  ∀ j < e.quadCount, ∃ m < e.firstDead,
    (e.particles.getD m Particle.zero).lifetime <
        (e.particles.getD m Particle.zero).lifespan ∧
    ∀ k < 4,
      e.vertexData.getD (j * 4 + k) ParticleVertex.zero =
        ParticleEmitter.synthVert cam (e.particles.getD m Particle.zero) k

/-- Test camera: identity orientation, world position `(0, 0, 1)`
(`c1` is the camera up column, `c3` the position column). -/
def camA : Mat4 := ⟨⟨1, 0, 0, 0⟩, ⟨0, 1, 0, 0⟩, ⟨0, 0, 1, 0⟩, ⟨0, 0, 1, 1⟩⟩

/-- Scenario A: capacity 2, emit interval 1, lifespans drawn from `[3, 10]`,
zero speed, constant size 2, colour fading black to white. -/
def cfgA : EmitterConfig :=
  (ParticleEmitter.initialise 2 1 3 10 0 0 2 2 ⟨0, 0, 0, 0⟩ ⟨1, 1, 1, 1⟩).1

/-- Scenario A initial state. -/
def sA0 : EmitterState :=
  (ParticleEmitter.initialise 2 1 3 10 0 0 2 2 ⟨0, 0, 0, 0⟩ ⟨1, 1, 1, 1⟩).2

/-- Scenario A random stream: first sample 0 (first particle gets the
minimal lifespan 3), all later samples 1 (second particle gets lifespan
10). -/
def rngA : ℕ → ℚ := fun n => if n = 0 then 0 else 1

/-- Scenario A frame 1: `update(2.5)` emits two particles (timer 2.5 → two
loop iterations) and stages both their quads. -/
def sA1 : EmitterState :=
  ParticleEmitter.update rngA cfgA (by norm_num [cfgA, ParticleEmitter.initialise]) (5 / 2) camA sA0

/-- Scenario A frame 2: `update(1.0)`; the first particle (lifespan 3)
retires at lifetime 3.5, the second is swapped into slot 0 and skipped. -/
def sA2 : EmitterState :=
  ParticleEmitter.update rngA cfgA (by norm_num [cfgA, ParticleEmitter.initialise]) 1 camA sA1

/-- Scenario B: capacity 1, emit interval `1/2`, lifespan exactly 1, zero
speed, size growing 2 → 4. -/
def cfgB : EmitterConfig :=
  (ParticleEmitter.initialise 1 2 1 1 0 0 2 4 ⟨0, 0, 0, 0⟩ ⟨1, 1, 1, 1⟩).1

/-- Scenario B initial state. -/
def sB0 : EmitterState :=
  (ParticleEmitter.initialise 1 2 1 1 0 0 2 4 ⟨0, 0, 0, 0⟩ ⟨1, 1, 1, 1⟩).2

/-- Scenario B random stream: constant 1. -/
def rngB : ℕ → ℚ := fun _ => 1

/-- Scenario B frame 1: `update(0.6)` emits the particle and ages it to
lifetime `0.6 < 1`; its size becomes `mix(2, 4, 0.6) = 16/5`. -/
def sB1 : EmitterState :=
  ParticleEmitter.update rngB cfgB (by norm_num [cfgB, ParticleEmitter.initialise]) (3 / 5) camA sB0

/-- Scenario B frame 2: `update(0.4)` brings the lifetime to exactly `1.0`,
the lifespan, and the particle retires with its size still `16/5`. -/
def sB2 : EmitterState :=
  ParticleEmitter.update rngB cfgB (by norm_num [cfgB, ParticleEmitter.initialise]) (2 / 5) camA sB1

/-- Scenario C: the spec's catch-up example — capacity 100, emit rate 10
(interval `0.1`), immediately-dying particles, zero speed. -/
def cfgC : EmitterConfig :=
  (ParticleEmitter.initialise 100 10 0 0 0 0 1 1 ⟨0, 0, 0, 0⟩ ⟨0, 0, 0, 0⟩).1

/-- Scenario C initial state. -/
def sC0 : EmitterState :=
  (ParticleEmitter.initialise 100 10 0 0 0 0 1 1 ⟨0, 0, 0, 0⟩ ⟨0, 0, 0, 0⟩).2

/-- Scenario C random stream: constant 1. -/
def rngC : ℕ → ℚ := fun _ => 1

/-- Scenario C: feed the `dt` sequence `[0.05, 0.05, 0.2]`. -/
def sC : EmitterState :=
  ParticleEmitter.runUpdates rngC cfgC (by norm_num [cfgC, ParticleEmitter.initialise]) camA [1 / 20, 1 / 20, 1 / 5] sC0

/-- Scenario D: the spec's capacity-1 scenario — emit rate 1 (interval 1),
lifespan exactly `0.5`, zero speed. -/
def cfgD : EmitterConfig :=
  (ParticleEmitter.initialise 1 1 (1 / 2) (1 / 2) 0 0 1 1 ⟨0, 0, 0, 0⟩ ⟨0, 0, 0, 0⟩).1

/-- Scenario D initial state. -/
def sD0 : EmitterState :=
  (ParticleEmitter.initialise 1 1 (1 / 2) (1 / 2) 0 0 1 1 ⟨0, 0, 0, 0⟩ ⟨0, 0, 0, 0⟩).2

/-- Scenario D: a single `update(1.0)` from the fresh emitter. -/
def sD : EmitterState :=
  ParticleEmitter.update rngC cfgD (by norm_num [cfgD, ParticleEmitter.initialise]) 1 camA sD0

/-- The first particle scenario A emits: lifespan 3, zero velocity. -/
def pA0 : Particle := ⟨⟨0, 0, 0⟩, ⟨0, 0, 0⟩, 0, 3, 2, ⟨0, 0, 0, 0⟩⟩

/-- The second particle scenario A emits: lifespan 10. -/
def pA1 : Particle := ⟨⟨0, 0, 0⟩, ⟨0, 0, 0⟩, 0, 10, 2, ⟨0, 0, 0, 0⟩⟩

/-- Scenario A particle 0 after frame 1: aged to 2.5, colour 5/6 grey. -/
def pA0s : Particle := ⟨⟨0, 0, 0⟩, ⟨0, 0, 0⟩, 5 / 2, 3, 2, ⟨5 / 6, 5 / 6, 5 / 6, 5 / 6⟩⟩

/-- Scenario A particle 1 after frame 1: aged to 2.5, colour 1/4 grey. -/
def pA1s : Particle := ⟨⟨0, 0, 0⟩, ⟨0, 0, 0⟩, 5 / 2, 10, 2, ⟨1 / 4, 1 / 4, 1 / 4, 1 / 4⟩⟩

/-- Scenario A state after frame 1: both particles live, both quads staged. -/
def SA1 : EmitterState :=
  ⟨[pA0s, pA1s], 2, ⟨0, 0, 0⟩, 1 / 2,
    stagedQuadWrite camA pA1s 1
      (stagedQuadWrite camA pA0s 0 (List.replicate 8 ParticleVertex.zero)),
    List.replicate 8 ParticleVertex.zero, indexDataFor 2, 10, 2, 2,
    [0, 1, 2, 3, 4, 5, 6, 7]⟩

/-- Scenario A state after frame 2: particle 0 retired, particle 1 swapped
into slot 0 without being aged, no quad written this frame, and the staging
buffer still holding frame 1's quads. -/
def SA2 : EmitterState :=
  ⟨[pA1s, pA1s], 1, ⟨0, 0, 0⟩, 1 / 2,
    stagedQuadWrite camA pA1s 1
      (stagedQuadWrite camA pA0s 0 (List.replicate 8 ParticleVertex.zero)),
    List.replicate 8 ParticleVertex.zero, indexDataFor 2, 10, 3, 0,
    [0, 1, 2, 3, 4, 5, 6, 7]⟩

/-- Scenario B particle after frame 1: lifetime 0.6, size `mix(2,4,0.6)`. -/
def pB0s : Particle := ⟨⟨0, 0, 0⟩, ⟨0, 0, 0⟩, 3 / 5, 1, 16 / 5, ⟨3 / 5, 3 / 5, 3 / 5, 3 / 5⟩⟩

/-- Scenario B particle as it is retired in frame 2: lifetime exactly its
lifespan 1, size still 16/5 (never set to the end size 4). -/
def pB0r : Particle := ⟨⟨0, 0, 0⟩, ⟨0, 0, 0⟩, 1, 1, 16 / 5, ⟨3 / 5, 3 / 5, 3 / 5, 3 / 5⟩⟩

/-- Scenario B state after frame 1. -/
def SB1 : EmitterState :=
  ⟨[pB0s], 1, ⟨0, 0, 0⟩, 1 / 10,
    stagedQuadWrite camA pB0s 0 (List.replicate 4 ParticleVertex.zero),
    List.replicate 4 ParticleVertex.zero, indexDataFor 1, 5, 1, 1, [0, 1, 2, 3]⟩

/-- Scenario B state after frame 2: the particle retired at lifetime 1. -/
def SB2 : EmitterState :=
  ⟨[pB0r], 0, ⟨0, 0, 0⟩, 1 / 2,
    stagedQuadWrite camA pB0s 0 (List.replicate 4 ParticleVertex.zero),
    List.replicate 4 ParticleVertex.zero, indexDataFor 1, 5, 1, 0, [0, 1, 2, 3]⟩

end ParticleEmitter

@[simp] theorem Vec3.add_def (a b : Vec3) :
    a + b = ⟨a.x + b.x, a.y + b.y, a.z + b.z⟩ := rfl

@[simp] theorem Vec3.sub_def (a b : Vec3) :
    a - b = ⟨a.x - b.x, a.y - b.y, a.z - b.z⟩ := rfl

@[simp] theorem Vec3.smul_def (c : ℝ) (v : Vec3) :
    c • v = ⟨c * v.x, c * v.y, c * v.z⟩ := rfl

@[simp] theorem Vec4.add4_def (a b : Vec4) :
    a + b = ⟨a.x + b.x, a.y + b.y, a.z + b.z, a.w + b.w⟩ := rfl

@[simp] theorem Vec4.smul4_def (c : ℝ) (v : Vec4) :
    c • v = ⟨c * v.x, c * v.y, c * v.z, c * v.w⟩ := rfl

namespace ParticleEmitter

theorem emit_emitTimer (rng : ℕ → ℚ) (cfg : EmitterConfig) (e : EmitterState) :
    (emit rng cfg e).emitTimer = e.emitTimer := by
  unfold emit; split <;> rfl

theorem emit_emitCalls (rng : ℕ → ℚ) (cfg : EmitterConfig) (e : EmitterState) :
    (emit rng cfg e).emitCalls = e.emitCalls := by
  unfold emit; split <;> rfl

theorem emit_vertexData (rng : ℕ → ℚ) (cfg : EmitterConfig) (e : EmitterState) :
    (emit rng cfg e).vertexData = e.vertexData := by
  unfold emit; split <;> rfl

theorem emit_quadCount (rng : ℕ → ℚ) (cfg : EmitterConfig) (e : EmitterState) :
    (emit rng cfg e).quadCount = e.quadCount := by
  unfold emit; split <;> rfl

theorem emit_deviceVB (rng : ℕ → ℚ) (cfg : EmitterConfig) (e : EmitterState) :
    (emit rng cfg e).deviceVB = e.deviceVB := by
  unfold emit; split <;> rfl

theorem emit_indexBuffer (rng : ℕ → ℚ) (cfg : EmitterConfig) (e : EmitterState) :
    (emit rng cfg e).indexBuffer = e.indexBuffer := by
  unfold emit; split <;> rfl

theorem emit_position (rng : ℕ → ℚ) (cfg : EmitterConfig) (e : EmitterState) :
    (emit rng cfg e).position = e.position := by
  unfold emit; split <;> rfl

theorem emit_writeLog (rng : ℕ → ℚ) (cfg : EmitterConfig) (e : EmitterState) :
    (emit rng cfg e).writeLog = e.writeLog := by
  unfold emit; split <;> rfl

theorem emit_particles_length (rng : ℕ → ℚ) (cfg : EmitterConfig) (e : EmitterState) :
    (emit rng cfg e).particles.length = e.particles.length := by
  unfold emit; split
  · rfl
  · simp

theorem emit_firstDead_le (rng : ℕ → ℚ) (cfg : EmitterConfig) (e : EmitterState)
    (h : e.firstDead ≤ cfg.maxParticles) :
    (emit rng cfg e).firstDead ≤ cfg.maxParticles := by
  unfold emit; split
  · exact h
  · simp only [not_le] at *; omega

theorem emitLoop_unchanged (rng : ℕ → ℚ) (cfg : EmitterConfig)
    (hr : 0 < cfg.emitRate) (e : EmitterState) :
    (emitLoop rng cfg hr e).vertexData = e.vertexData ∧
    (emitLoop rng cfg hr e).quadCount = e.quadCount ∧
    (emitLoop rng cfg hr e).particles.length = e.particles.length ∧
    (emitLoop rng cfg hr e).deviceVB = e.deviceVB ∧
    (emitLoop rng cfg hr e).indexBuffer = e.indexBuffer ∧
    (emitLoop rng cfg hr e).position = e.position ∧
    (emitLoop rng cfg hr e).writeLog = e.writeLog := by
  induction e using emitLoop.induct rng cfg hr with
  | case1 e hcond ih =>
      rw [emitLoop, if_pos hcond]
      simpa [emit_vertexData, emit_quadCount, emit_particles_length,
        emit_deviceVB, emit_indexBuffer, emit_position, emit_writeLog] using ih
  | case2 e hcond =>
      rw [emitLoop, if_neg hcond]
      exact ⟨rfl, rfl, rfl, rfl, rfl, rfl, rfl⟩

theorem emitLoop_firstDead_le (rng : ℕ → ℚ) (cfg : EmitterConfig)
    (hr : 0 < cfg.emitRate) (e : EmitterState)
    (h : e.firstDead ≤ cfg.maxParticles) :
    (emitLoop rng cfg hr e).firstDead ≤ cfg.maxParticles := by
  induction e using emitLoop.induct rng cfg hr with
  | case1 e hcond ih =>
      rw [emitLoop, if_pos hcond]
      exact ih (emit_firstDead_le rng cfg e h)
  | case2 e hcond =>
      rw [emitLoop, if_neg hcond]
      exact h

theorem emitLoop_timer_spec (rng : ℕ → ℚ) (cfg : EmitterConfig)
    (hr : 0 < cfg.emitRate) (e : EmitterState) :
    ∃ k : ℕ,
      (emitLoop rng cfg hr e).emitTimer = e.emitTimer - k * cfg.emitRate ∧
      (emitLoop rng cfg hr e).emitCalls = e.emitCalls + k ∧
      (emitLoop rng cfg hr e).emitTimer ≤ cfg.emitRate ∧
      (0 ≤ e.emitTimer → 0 ≤ (emitLoop rng cfg hr e).emitTimer) ∧
      (0 < (emitLoop rng cfg hr e).emitTimer ∨
        (emitLoop rng cfg hr e).emitTimer = e.emitTimer) := by
  induction e using emitLoop.induct rng cfg hr with
  | case1 e hcond ih =>
      rw [emitLoop, if_pos hcond]
      simp only at ih
      obtain ⟨k, h1, h2, h3, h4, h5⟩ := ih
      have hpos : (0 : ℚ) < e.emitTimer - cfg.emitRate := by linarith [hcond]
      refine ⟨k + 1, ?_, ?_, h3, ?_, ?_⟩
      · rw [h1]; push_cast; ring
      · rw [h2]; omega
      · intro _
        exact h4 (le_of_lt hpos)
      · left
        rcases h5 with h5 | h5
        · exact h5
        · rw [h5]; exact hpos
  | case2 e hcond =>
      rw [emitLoop, if_neg hcond]
      exact ⟨0, by push_cast; ring, by omega, le_of_not_lt hcond,
        fun h => h, Or.inr rfl⟩

theorem emit_saturated (rng : ℕ → ℚ) (cfg : EmitterConfig) (e : EmitterState)
    (h : cfg.maxParticles ≤ e.firstDead) : emit rng cfg e = e := by
  unfold emit; rw [if_pos h]

theorem emit_unsaturated (rng : ℕ → ℚ) (cfg : EmitterConfig) (e : EmitterState)
    (h : e.firstDead < cfg.maxParticles) :
    emit rng cfg e =
      { e with
          particles := e.particles.set e.firstDead (emittedParticle rng cfg e)
          firstDead := e.firstDead + 1
          rngIdx := e.rngIdx + 5 } := by
  unfold emit; rw [if_neg (not_le.mpr h)]
  rfl

theorem updateLoop_exit (cfg : EmitterConfig) (cam : Mat4) (dt : ℚ)
    (i : ℕ) (e : EmitterState) (h : ¬i < e.firstDead) :
    updateLoop cfg cam dt i e = e := by
  rw [updateLoop, dif_neg h]

theorem updateLoop_retire (cfg : EmitterConfig) (cam : Mat4) (dt : ℚ)
    (i : ℕ) (e : EmitterState) (hi : i < e.firstDead)
    (hd : (agedAt dt i e).lifetime ≥ (agedAt dt i e).lifespan) :
    updateLoop cfg cam dt i e =
      updateLoop cfg cam dt (i + 1) (retireStateAt dt i e) := by
  conv_lhs => rw [updateLoop]
  rw [dif_pos hi]
  simp only []
  split
  · rfl
  · next hcond => exact absurd hd hcond

theorem updateLoop_survive (cfg : EmitterConfig) (cam : Mat4) (dt : ℚ)
    (i : ℕ) (e : EmitterState) (hi : i < e.firstDead)
    (hd : ¬(agedAt dt i e).lifetime ≥ (agedAt dt i e).lifespan) :
    updateLoop cfg cam dt i e =
      updateLoop cfg cam dt (i + 1) (surviveStateAt cfg cam dt i e) := by
  conv_lhs => rw [updateLoop]
  rw [dif_pos hi]
  simp only []
  split
  · next hcond => exact absurd hcond hd
  · rfl

theorem updateLoop_unchanged_fuel (cfg : EmitterConfig) (cam : Mat4) (dt : ℚ) :
    ∀ (n i : ℕ) (e : EmitterState), e.firstDead - i ≤ n →
      (updateLoop cfg cam dt i e).emitTimer = e.emitTimer ∧
      (updateLoop cfg cam dt i e).emitCalls = e.emitCalls ∧
      (updateLoop cfg cam dt i e).indexBuffer = e.indexBuffer ∧
      (updateLoop cfg cam dt i e).deviceVB = e.deviceVB ∧
      (updateLoop cfg cam dt i e).rngIdx = e.rngIdx ∧
      (updateLoop cfg cam dt i e).position = e.position ∧
      (updateLoop cfg cam dt i e).particles.length = e.particles.length ∧
      (updateLoop cfg cam dt i e).firstDead ≤ e.firstDead := by
  intro n
  induction n with
  | zero =>
      intro i e hn
      rw [updateLoop_exit cfg cam dt i e (by omega)]
      exact ⟨rfl, rfl, rfl, rfl, rfl, rfl, rfl, le_refl _⟩
  | succ n IH =>
      intro i e hn
      by_cases hi : i < e.firstDead
      · by_cases hd : (agedAt dt i e).lifetime ≥ (agedAt dt i e).lifespan
        · rw [updateLoop_retire cfg cam dt i e hi hd]
          have hfd : (retireStateAt dt i e).firstDead = e.firstDead - 1 := rfl
          obtain ⟨u1, u2, u3, u4, u5, u6, u7, u8⟩ :=
            IH (i + 1) (retireStateAt dt i e) (by rw [hfd]; omega)
          have hlen : (retireStateAt dt i e).particles.length = e.particles.length := by
            simp [retireStateAt]
          exact ⟨u1, u2, u3, u4, u5, u6, u7.trans hlen, by omega⟩
        · rw [updateLoop_survive cfg cam dt i e hi hd]
          have hfd : (surviveStateAt cfg cam dt i e).firstDead = e.firstDead := rfl
          obtain ⟨u1, u2, u3, u4, u5, u6, u7, u8⟩ :=
            IH (i + 1) (surviveStateAt cfg cam dt i e) (by rw [hfd]; omega)
          have hlen : (surviveStateAt cfg cam dt i e).particles.length =
              e.particles.length := by
            simp [surviveStateAt]
          exact ⟨u1, u2, u3, u4, u5, u6, u7.trans hlen, by omega⟩
      · rw [updateLoop_exit cfg cam dt i e hi]
        exact ⟨rfl, rfl, rfl, rfl, rfl, rfl, rfl, le_refl _⟩

theorem listGetD_set_eq {α : Type} {l : List α} {i : ℕ} {a d : α}
    (h : i < l.length) : (l.set i a).getD i d = a := by
  simp [List.getD_eq_getElem?_getD, List.getElem?_set_self h]

theorem listGetD_set_ne {α : Type} {l : List α} {i j : ℕ} {a d : α}
    (h : i ≠ j) : (l.set i a).getD j d = l.getD j d := by
  simp [List.getD_eq_getElem?_getD, List.getElem?_set_ne h]

theorem stagedQuadWrite_length (cam : Mat4) (p : Particle) (q : ℕ)
    (vd : List ParticleVertex) :
    (stagedQuadWrite cam p q vd).length = vd.length := by
  simp [stagedQuadWrite]

theorem stagedQuadWrite_getD_ne (cam : Mat4) (p : Particle) (q : ℕ)
    (vd : List ParticleVertex) (j : ℕ) (d : ParticleVertex)
    (h0 : j ≠ q * 4) (h1 : j ≠ q * 4 + 1) (h2 : j ≠ q * 4 + 2)
    (h3 : j ≠ q * 4 + 3) :
    (stagedQuadWrite cam p q vd).getD j d = vd.getD j d := by
  unfold stagedQuadWrite
  simp only []
  rw [listGetD_set_ne (Ne.symm h3), listGetD_set_ne (Ne.symm h2),
    listGetD_set_ne (Ne.symm h1), listGetD_set_ne (Ne.symm h0),
    listGetD_set_ne (Ne.symm h3), listGetD_set_ne (Ne.symm h2),
    listGetD_set_ne (Ne.symm h1), listGetD_set_ne (Ne.symm h0)]

theorem stagedQuadWrite_getD (cam : Mat4) (p : Particle) (q : ℕ)
    (vd : List ParticleVertex) (hlen : q * 4 + 3 < vd.length)
    (k : ℕ) (hk : k < 4) :
    (stagedQuadWrite cam p q vd).getD (q * 4 + k) ParticleVertex.zero =
      synthVert cam p k := by
  unfold stagedQuadWrite
  simp only []
  interval_cases k
  · simp only [Nat.add_zero]
    rw [listGetD_set_ne (by omega), listGetD_set_ne (by omega),
      listGetD_set_ne (by omega), listGetD_set_eq (by (try simp only [List.length_set]); omega),
      listGetD_set_ne (by omega), listGetD_set_ne (by omega),
      listGetD_set_ne (by omega), listGetD_set_eq (by (try simp only [List.length_set]); omega)]
    rfl
  · rw [listGetD_set_ne (by omega), listGetD_set_ne (by omega),
      listGetD_set_eq (by (try simp only [List.length_set]); omega),
      listGetD_set_ne (by omega), listGetD_set_ne (by omega),
      listGetD_set_eq (by (try simp only [List.length_set]); omega)]
    rfl
  · rw [listGetD_set_ne (by omega), listGetD_set_eq (by (try simp only [List.length_set]); omega),
      listGetD_set_ne (by omega), listGetD_set_eq (by (try simp only [List.length_set]); omega)]
    rfl
  · rw [listGetD_set_eq (by (try simp only [List.length_set]); omega), listGetD_set_eq (by (try simp only [List.length_set]); omega)]
    rfl

theorem localVert_colour (p : Particle) (k : ℕ) :
    (localVert p k).colour = p.colour := by
  rcases k with _ | _ | _ | k <;> rfl

theorem synthVert_colour (cam : Mat4) (p : Particle) (k : ℕ) :
    (synthVert cam p k).colour = p.colour := by
  show (transformVert cam p.position (localVert p k)).colour = p.colour
  rw [transformVert]
  exact localVert_colour p k

theorem updateLoop_unchanged (cfg : EmitterConfig) (cam : Mat4) (dt : ℚ)
    (i : ℕ) (e : EmitterState) :
    (updateLoop cfg cam dt i e).emitTimer = e.emitTimer ∧
    (updateLoop cfg cam dt i e).emitCalls = e.emitCalls ∧
    (updateLoop cfg cam dt i e).indexBuffer = e.indexBuffer ∧
    (updateLoop cfg cam dt i e).deviceVB = e.deviceVB ∧
    (updateLoop cfg cam dt i e).rngIdx = e.rngIdx ∧
    (updateLoop cfg cam dt i e).position = e.position ∧
    (updateLoop cfg cam dt i e).particles.length = e.particles.length ∧
    (updateLoop cfg cam dt i e).firstDead ≤ e.firstDead :=
  updateLoop_unchanged_fuel cfg cam dt (e.firstDead - i) i e (le_refl _)

theorem survivorAt_lifetime (cfg : EmitterConfig) (dt : ℚ) (i : ℕ)
    (e : EmitterState) :
    (survivorAt cfg dt i e).lifetime = (agedAt dt i e).lifetime := rfl

theorem survivorAt_lifespan (cfg : EmitterConfig) (dt : ℚ) (i : ℕ)
    (e : EmitterState) :
    (survivorAt cfg dt i e).lifespan = (agedAt dt i e).lifespan := rfl

theorem retireStateAt_particles (dt : ℚ) (i : ℕ) (e : EmitterState) :
    (retireStateAt dt i e).particles =
      (e.particles.set i (agedAt dt i e)).set i
        ((e.particles.set i (agedAt dt i e)).getD (e.firstDead - 1)
          Particle.zero) := rfl

theorem retireStateAt_firstDead (dt : ℚ) (i : ℕ) (e : EmitterState) :
    (retireStateAt dt i e).firstDead = e.firstDead - 1 := rfl

theorem retireStateAt_vertexData (dt : ℚ) (i : ℕ) (e : EmitterState) :
    (retireStateAt dt i e).vertexData = e.vertexData := rfl

theorem retireStateAt_quadCount (dt : ℚ) (i : ℕ) (e : EmitterState) :
    (retireStateAt dt i e).quadCount = e.quadCount := rfl

theorem retireStateAt_writeLog (dt : ℚ) (i : ℕ) (e : EmitterState) :
    (retireStateAt dt i e).writeLog = e.writeLog := rfl

theorem surviveStateAt_particles (cfg : EmitterConfig) (cam : Mat4) (dt : ℚ)
    (i : ℕ) (e : EmitterState) :
    (surviveStateAt cfg cam dt i e).particles =
      (e.particles.set i (agedAt dt i e)).set i (survivorAt cfg dt i e) := rfl

theorem surviveStateAt_firstDead (cfg : EmitterConfig) (cam : Mat4) (dt : ℚ)
    (i : ℕ) (e : EmitterState) :
    (surviveStateAt cfg cam dt i e).firstDead = e.firstDead := rfl

theorem surviveStateAt_vertexData (cfg : EmitterConfig) (cam : Mat4) (dt : ℚ)
    (i : ℕ) (e : EmitterState) :
    (surviveStateAt cfg cam dt i e).vertexData =
      stagedQuadWrite cam (survivorAt cfg dt i e) e.quadCount e.vertexData := rfl

theorem surviveStateAt_quadCount (cfg : EmitterConfig) (cam : Mat4) (dt : ℚ)
    (i : ℕ) (e : EmitterState) :
    (surviveStateAt cfg cam dt i e).quadCount = e.quadCount + 1 := rfl

theorem surviveStateAt_writeLog (cfg : EmitterConfig) (cam : Mat4) (dt : ℚ)
    (i : ℕ) (e : EmitterState) :
    (surviveStateAt cfg cam dt i e).writeLog =
      e.writeLog ++
        [e.quadCount * 4, e.quadCount * 4 + 1, e.quadCount * 4 + 2,
          e.quadCount * 4 + 3] := rfl

theorem updateLoop_fresh_fuel (cfg : EmitterConfig) (cam : Mat4) (dt : ℚ) :
    ∀ (n i : ℕ) (e : EmitterState), e.firstDead - i ≤ n →
      e.quadCount ≤ i →
      e.quadCount ≤ e.firstDead →
      e.firstDead ≤ e.particles.length →
      4 * e.firstDead ≤ e.vertexData.length →
      (∀ j < e.quadCount, ∃ m, m < i ∧ m < e.firstDead ∧
          (e.particles.getD m Particle.zero).lifetime <
            (e.particles.getD m Particle.zero).lifespan ∧
          ∀ k < 4,
            e.vertexData.getD (j * 4 + k) ParticleVertex.zero =
              synthVert cam (e.particles.getD m Particle.zero) k) →
      (updateLoop cfg cam dt i e).quadCount ≤ (updateLoop cfg cam dt i e).firstDead ∧
      ∀ j < (updateLoop cfg cam dt i e).quadCount, ∃ m,
        m < (updateLoop cfg cam dt i e).firstDead ∧
        ((updateLoop cfg cam dt i e).particles.getD m Particle.zero).lifetime <
          ((updateLoop cfg cam dt i e).particles.getD m Particle.zero).lifespan ∧
        ∀ k < 4,
          (updateLoop cfg cam dt i e).vertexData.getD (j * 4 + k) ParticleVertex.zero =
            synthVert cam ((updateLoop cfg cam dt i e).particles.getD m Particle.zero) k := by
  intro n
  induction n with
  | zero =>
      intro i e hn hqi hqf hpl hvl hfresh
      rw [updateLoop_exit cfg cam dt i e (by omega)]
      refine ⟨hqf, fun j hj => ?_⟩
      obtain ⟨m, _, hm2, hm3, hm4⟩ := hfresh j hj
      exact ⟨m, hm2, hm3, hm4⟩
  | succ n IH =>
      intro i e hn hqi hqf hpl hvl hfresh
      by_cases hi : i < e.firstDead
      · by_cases hd : (agedAt dt i e).lifetime ≥ (agedAt dt i e).lifespan
        · -- retire step: slot i is overwritten, staging untouched
          rw [updateLoop_retire cfg cam dt i e hi hd]
          refine IH (i + 1) (retireStateAt dt i e) ?_ ?_ ?_ ?_ ?_ ?_
          · rw [retireStateAt_firstDead]; omega
          · rw [retireStateAt_quadCount]; omega
          · rw [retireStateAt_quadCount, retireStateAt_firstDead]; omega
          · rw [retireStateAt_firstDead, retireStateAt_particles]
            simp only [List.length_set]
            omega
          · rw [retireStateAt_firstDead, retireStateAt_vertexData]
            omega
          · rw [retireStateAt_quadCount]
            intro j hj
            obtain ⟨m, hm1, hm2, hm3, hm4⟩ := hfresh j hj
            rw [retireStateAt_particles, retireStateAt_firstDead,
              retireStateAt_vertexData]
            refine ⟨m, by omega, by omega, ?_, ?_⟩
            · rw [listGetD_set_ne (by omega), listGetD_set_ne (by omega)]
              exact hm3
            · intro k hk
              rw [listGetD_set_ne (by omega), listGetD_set_ne (by omega)]
              exact hm4 k hk
        · -- survive step: quad e.quadCount is written for the survivor at slot i
          rw [updateLoop_survive cfg cam dt i e hi hd]
          refine IH (i + 1) (surviveStateAt cfg cam dt i e) ?_ ?_ ?_ ?_ ?_ ?_
          · rw [surviveStateAt_firstDead]; omega
          · rw [surviveStateAt_quadCount]; omega
          · rw [surviveStateAt_quadCount, surviveStateAt_firstDead]; omega
          · rw [surviveStateAt_firstDead, surviveStateAt_particles]
            simp only [List.length_set]
            omega
          · rw [surviveStateAt_firstDead, surviveStateAt_vertexData,
              stagedQuadWrite_length]
            omega
          · rw [surviveStateAt_quadCount]
            intro j hj
            rw [surviveStateAt_particles, surviveStateAt_firstDead,
              surviveStateAt_vertexData]
            rcases Nat.lt_succ_iff_lt_or_eq.mp hj with hjq | hjq
            · -- an older quad: its witness particle and its records are untouched
              obtain ⟨m, hm1, hm2, hm3, hm4⟩ := hfresh j hjq
              refine ⟨m, by omega, by omega, ?_, ?_⟩
              · rw [listGetD_set_ne (by omega), listGetD_set_ne (by omega)]
                exact hm3
              · intro k hk
                rw [stagedQuadWrite_getD_ne _ _ _ _ _ _ (by omega) (by omega)
                    (by omega) (by omega),
                  listGetD_set_ne (by omega), listGetD_set_ne (by omega)]
                exact hm4 k hk
            · -- the freshly written quad: witnessed by the survivor at slot i
              subst hjq
              refine ⟨i, by omega, by omega, ?_, ?_⟩
              · rw [listGetD_set_eq (by simp only [List.length_set]; omega)]
                rw [survivorAt_lifetime, survivorAt_lifespan]
                exact not_le.mp hd
              · intro k hk
                rw [listGetD_set_eq (by simp only [List.length_set]; omega)]
                exact stagedQuadWrite_getD cam _ e.quadCount e.vertexData
                  (by omega) k hk
      · rw [updateLoop_exit cfg cam dt i e hi]
        refine ⟨hqf, fun j hj => ?_⟩
        obtain ⟨m, _, hm2, hm3, hm4⟩ := hfresh j hj
        exact ⟨m, hm2, hm3, hm4⟩

theorem updateLoop_writeLog_fuel (cfg : EmitterConfig) (cam : Mat4) (dt : ℚ) :
    ∀ (n i : ℕ) (e : EmitterState), e.firstDead - i ≤ n →
      e.quadCount ≤ i →
      e.firstDead ≤ cfg.maxParticles →
      (∀ x ∈ e.writeLog, x < 4 * cfg.maxParticles) →
      ∀ x ∈ (updateLoop cfg cam dt i e).writeLog, x < 4 * cfg.maxParticles := by
  intro n
  induction n with
  | zero =>
      intro i e hn hqi hfN hlog
      rw [updateLoop_exit cfg cam dt i e (by omega)]
      exact hlog
  | succ n IH =>
      intro i e hn hqi hfN hlog
      by_cases hi : i < e.firstDead
      · by_cases hd : (agedAt dt i e).lifetime ≥ (agedAt dt i e).lifespan
        · rw [updateLoop_retire cfg cam dt i e hi hd]
          refine IH (i + 1) (retireStateAt dt i e) ?_ ?_ ?_ ?_
          · rw [retireStateAt_firstDead]; omega
          · rw [retireStateAt_quadCount]; omega
          · rw [retireStateAt_firstDead]; omega
          · rw [retireStateAt_writeLog]; exact hlog
        · rw [updateLoop_survive cfg cam dt i e hi hd]
          refine IH (i + 1) (surviveStateAt cfg cam dt i e) ?_ ?_ ?_ ?_
          · rw [surviveStateAt_firstDead]; omega
          · rw [surviveStateAt_quadCount]; omega
          · rw [surviveStateAt_firstDead]; omega
          · rw [surviveStateAt_writeLog]
            intro x hx
            rcases List.mem_append.mp hx with hx | hx
            · exact hlog x hx
            · simp only [List.mem_cons, List.mem_singleton] at hx
              rcases hx with h | h | h | h | h <;> first
                | (subst h; omega)
                | exact absurd h (List.not_mem_nil x)
      · rw [updateLoop_exit cfg cam dt i e hi]
        exact hlog

theorem emitLoop_timer_timerRun (rng : ℕ → ℚ) (cfg : EmitterConfig)
    (hr : 0 < cfg.emitRate) (e : EmitterState) :
    (emitLoop rng cfg hr e).emitTimer = timerRun cfg.emitRate hr e.emitTimer := by
  induction e using emitLoop.induct rng cfg hr with
  | case1 e hcond ih =>
      rw [emitLoop, if_pos hcond]
      conv_rhs => rw [timerRun]
      rw [if_pos hcond]
      simpa using ih
  | case2 e hcond =>
      rw [emitLoop, if_neg hcond]
      conv_rhs => rw [timerRun]
      rw [if_neg hcond]

theorem update_timer_spec (rng : ℕ → ℚ) (cfg : EmitterConfig)
    (hr : 0 < cfg.emitRate) (dt : ℚ) (cam : Mat4) (e : EmitterState) :
    ∃ k : ℕ,
      (update rng cfg hr dt cam e).emitTimer = e.emitTimer + dt - k * cfg.emitRate ∧
      (update rng cfg hr dt cam e).emitCalls = e.emitCalls + k ∧
      (update rng cfg hr dt cam e).emitTimer ≤ cfg.emitRate ∧
      (0 ≤ e.emitTimer + dt → 0 ≤ (update rng cfg hr dt cam e).emitTimer) ∧
      (0 < (update rng cfg hr dt cam e).emitTimer ∨
        (update rng cfg hr dt cam e).emitTimer = e.emitTimer + dt) := by
  unfold update
  obtain ⟨u1, u2, -⟩ :=
    updateLoop_unchanged cfg cam dt 0
      { emitLoop rng cfg hr { e with emitTimer := e.emitTimer + dt } with
          quadCount := 0 }
  rw [u1, u2]
  obtain ⟨k, h1, h2, h3, h4, h5⟩ :=
    emitLoop_timer_spec rng cfg hr { e with emitTimer := e.emitTimer + dt }
  exact ⟨k, h1, h2, h3, h4, h5⟩

theorem update_firstDead_le (rng : ℕ → ℚ) (cfg : EmitterConfig)
    (hr : 0 < cfg.emitRate) (dt : ℚ) (cam : Mat4) (e : EmitterState)
    (h : e.firstDead ≤ cfg.maxParticles) :
    (update rng cfg hr dt cam e).firstDead ≤ cfg.maxParticles := by
  unfold update
  refine le_trans (updateLoop_unchanged cfg cam dt 0 _).2.2.2.2.2.2.2 ?_
  exact emitLoop_firstDead_le rng cfg hr _ h

theorem update_particles_length (rng : ℕ → ℚ) (cfg : EmitterConfig)
    (hr : 0 < cfg.emitRate) (dt : ℚ) (cam : Mat4) (e : EmitterState) :
    (update rng cfg hr dt cam e).particles.length = e.particles.length := by
  unfold update
  rw [(updateLoop_unchanged cfg cam dt 0 _).2.2.2.2.2.2.1]
  exact (emitLoop_unchanged rng cfg hr _).2.2.1

theorem updateLoop_vertexData_length_fuel (cfg : EmitterConfig) (cam : Mat4)
    (dt : ℚ) : ∀ (n i : ℕ) (e : EmitterState), e.firstDead - i ≤ n →
      (updateLoop cfg cam dt i e).vertexData.length = e.vertexData.length := by
  intro n
  induction n with
  | zero =>
      intro i e hn
      rw [updateLoop_exit cfg cam dt i e (by omega)]
  | succ n IH =>
      intro i e hn
      by_cases hi : i < e.firstDead
      · by_cases hd : (agedAt dt i e).lifetime ≥ (agedAt dt i e).lifespan
        · rw [updateLoop_retire cfg cam dt i e hi hd]
          rw [IH (i + 1) (retireStateAt dt i e) (by rw [retireStateAt_firstDead]; omega)]
          rw [retireStateAt_vertexData]
        · rw [updateLoop_survive cfg cam dt i e hi hd]
          rw [IH (i + 1) (surviveStateAt cfg cam dt i e)
            (by rw [surviveStateAt_firstDead]; omega)]
          rw [surviveStateAt_vertexData, stagedQuadWrite_length]
      · rw [updateLoop_exit cfg cam dt i e hi]

theorem update_vertexData_length (rng : ℕ → ℚ) (cfg : EmitterConfig)
    (hr : 0 < cfg.emitRate) (dt : ℚ) (cam : Mat4) (e : EmitterState) :
    (update rng cfg hr dt cam e).vertexData.length = e.vertexData.length := by
  unfold update
  rw [updateLoop_vertexData_length_fuel cfg cam dt _ 0 _ (le_refl _)]
  exact congrArg List.length (emitLoop_unchanged rng cfg hr _).1


theorem emitLoop_step (rng : ℕ → ℚ) (cfg : EmitterConfig)
    (hr : 0 < cfg.emitRate) (e : EmitterState)
    (h : e.emitTimer > cfg.emitRate) :
    emitLoop rng cfg hr e =
      emitLoop rng cfg hr
        { emit rng cfg e with
            emitTimer := e.emitTimer - cfg.emitRate
            emitCalls := e.emitCalls + 1 } := by
  conv_lhs => rw [emitLoop]
  rw [if_pos h]

theorem emitLoop_done (rng : ℕ → ℚ) (cfg : EmitterConfig)
    (hr : 0 < cfg.emitRate) (e : EmitterState)
    (h : ¬e.emitTimer > cfg.emitRate) :
    emitLoop rng cfg hr e = e := by
  rw [emitLoop, if_neg h]

theorem cfgA_rate : cfgA.emitRate = 1 := by
  norm_num [cfgA, initialise]

theorem cfgA_max : cfgA.maxParticles = 2 := rfl

-- the emission phase of scenario A frame 1
theorem emitA (e : EmitterState) (pf : 0 < cfgA.emitRate)
    (hfd : e.firstDead = 0) (hidx : e.rngIdx = 0) (ht : e.emitTimer = 5 / 2)
    (hp : e.particles = [Particle.zero, Particle.zero])
    (hpos : e.position = ⟨0, 0, 0⟩) :
    emitLoop rngA cfgA pf e =
      { e with
          particles := [pA0, pA1]
          firstDead := 2
          rngIdx := 10
          emitTimer := 1 / 2
          emitCalls := e.emitCalls + 1 + 1 } := by
  rw [emitLoop_step _ _ _ _ (by rw [ht, cfgA_rate]; norm_num)]
  rw [emit_unsaturated rngA cfgA e (by rw [hfd, cfgA_max]; norm_num)]
  rw [emitLoop_step _ _ _ _ (by simp only []; rw [ht, cfgA_rate]; norm_num)]
  rw [emit_unsaturated rngA cfgA _ (by simp only []; rw [hfd, cfgA_max]; norm_num)]
  rw [emitLoop_done _ _ _ _ (by simp only []; rw [ht, cfgA_rate]; norm_num)]
  norm_num [EmitterState.mk.injEq, emittedParticle, hp, hfd, hidx, ht, hpos,
    cfgA, initialise, rngA, pA0, pA1, Particle.mk.injEq, Vec3.mk.injEq,
    Vec4q.mk.injEq, Vec3.normalize, Vec3.dot]


theorem sweepA (e : EmitterState)
    (hfd : e.firstDead = 2) (hq : e.quadCount = 0)
    (hp : e.particles = [pA0, pA1]) :
    updateLoop cfgA camA (5 / 2) 0 e =
      { e with
          particles := [pA0s, pA1s]
          vertexData :=
            stagedQuadWrite camA pA1s 1 (stagedQuadWrite camA pA0s 0 e.vertexData)
          quadCount := 2
          writeLog := e.writeLog ++ [0, 1, 2, 3] ++ [4, 5, 6, 7] } := by
  have hs0 : surviveStateAt cfgA camA (5 / 2) 0 e =
      { e with
          particles := [pA0s, pA1]
          vertexData := stagedQuadWrite camA pA0s 0 e.vertexData
          quadCount := 1
          writeLog := e.writeLog ++ [0, 1, 2, 3] } := by
    have hsv : survivorAt cfgA (5 / 2) 0 e = pA0s := by
      norm_num [survivorAt, agedAt, hp, pA0, pA0s, cfgA, initialise, mixQ, mixV4,
        Particle.mk.injEq, Vec3.mk.injEq, Vec4q.mk.injEq]
    rw [surviveStateAt]
    norm_num [EmitterState.mk.injEq, hsv, hq, agedAt, hp, pA0, pA0s]
  have hs1 : surviveStateAt cfgA camA (5 / 2) 1
      ({ e with
          particles := [pA0s, pA1]
          vertexData := stagedQuadWrite camA pA0s 0 e.vertexData
          quadCount := 1
          writeLog := e.writeLog ++ [0, 1, 2, 3] } : EmitterState) =
      { e with
          particles := [pA0s, pA1s]
          vertexData :=
            stagedQuadWrite camA pA1s 1 (stagedQuadWrite camA pA0s 0 e.vertexData)
          quadCount := 2
          writeLog := e.writeLog ++ [0, 1, 2, 3] ++ [4, 5, 6, 7] } := by
    have hsv : survivorAt cfgA (5 / 2) 1
        ({ e with
            particles := [pA0s, pA1]
            vertexData := stagedQuadWrite camA pA0s 0 e.vertexData
            quadCount := 1
            writeLog := e.writeLog ++ [0, 1, 2, 3] } : EmitterState) = pA1s := by
      norm_num [survivorAt, agedAt, pA1, pA1s, cfgA, initialise, mixQ, mixV4,
        Particle.mk.injEq, Vec3.mk.injEq, Vec4q.mk.injEq]
    rw [surviveStateAt]
    norm_num [EmitterState.mk.injEq, hsv]
  rw [updateLoop_survive cfgA camA (5 / 2) 0 e (by rw [hfd]; norm_num)
      (by norm_num [agedAt, hp, pA0])]
  rw [hs0]
  rw [updateLoop_survive cfgA camA (5 / 2) 1 _ (by norm_num [hfd])
      (by norm_num [agedAt, pA1])]
  rw [hs1]
  rw [updateLoop_exit _ _ _ _ _ (by norm_num [hfd])]


-- scenario A frame 2: the saturated emit is a no-op, the first particle
-- retires, the second is swapped into slot 0 and skipped
theorem frameA2 (e : EmitterState) (pf : 0 < cfgA.emitRate)
    (hfd : e.firstDead = 2) (ht : e.emitTimer = 1 / 2)
    (hp : e.particles = [pA0s, pA1s]) :
    update rngA cfgA pf 1 camA e =
      { e with
          particles := [pA1s, pA1s]
          firstDead := 1
          emitTimer := 1 / 2
          emitCalls := e.emitCalls + 1
          quadCount := 0 } := by
  unfold update
  rw [emitLoop_step _ _ _ _ (by norm_num [ht, cfgA_rate])]
  rw [emit_saturated rngA cfgA _ (by norm_num [hfd, cfgA_max])]
  rw [emitLoop_done _ _ _ _ (by norm_num [ht, cfgA_rate])]
  rw [updateLoop_retire cfgA camA 1 0 _ (by norm_num [hfd])
      (by norm_num [agedAt, hp, pA0s])]
  rw [updateLoop_exit _ _ _ _ _ (by norm_num [retireStateAt_firstDead, hfd])]
  rw [retireStateAt]
  norm_num [EmitterState.mk.injEq, hp, hfd, ht, cfgA_rate, agedAt]

theorem sA1_eq : sA1 = SA1 := by
  unfold sA1 update
  rw [emitA _ _ rfl rfl (by show (0 : ℚ) + 5 / 2 = 5 / 2; norm_num) rfl rfl]
  rw [sweepA _ rfl rfl rfl]
  rfl

theorem sA2_eq : sA2 = SA2 := by
  unfold sA2
  rw [sA1_eq]
  rw [frameA2 SA1 _ rfl rfl rfl]
  rfl


/-- C1 counterexample: after scenario A's frame 2, slot 1 of the staged
range `[0, firstDead*4)` still holds frame 1's quad for the retired
particle (colour 5/6 grey), while the only live particle has colour 1/4
grey — stale geometry leaks into the rendered range. -/
theorem claim_C1_counterexample : ¬ StagingFresh camA sA2 := by
  rw [sA2_eq]
  intro h
  obtain ⟨m, hm, hlive, hq⟩ := h 0 (by norm_num [SA2])
  have hm0 : m = 0 := by
    have hm1 : m < SA2.firstDead := hm
    norm_num [SA2] at hm1
    omega
  subst hm0
  have h00 := hq 0 (by norm_num)
  have hvd : SA2.vertexData =
      stagedQuadWrite camA pA1s 1
        (stagedQuadWrite camA pA0s 0 (List.replicate 8 ParticleVertex.zero)) := rfl
  rw [hvd] at h00
  rw [stagedQuadWrite_getD_ne _ _ _ _ _ _ (by norm_num) (by norm_num)
    (by norm_num) (by norm_num)] at h00
  rw [stagedQuadWrite_getD camA pA0s 0 _ (by simp) 0 (by norm_num)] at h00
  have hcol := congrArg ParticleVertex.colour h00
  rw [synthVert_colour, synthVert_colour] at hcol
  have hp : SA2.particles.getD 0 Particle.zero = pA1s := by norm_num [SA2]
  rw [hp] at hcol
  exact absurd hcol (by norm_num [pA0s, pA1s, Vec4q.mk.injEq])

/-- C2 counterexample: in scenario A's frame 2 the particle swapped into
the retired slot 0 ends the sweep with lifetime still 5/2 (being well short
of its lifespan 10, it would have survived and been staged had it been
re-examined) and no quad is written — the replacement is skipped. -/
theorem claim_C2_counterexample :
    sA1.firstDead = 2 ∧ sA2.firstDead = 1 ∧
    sA2.particles.getD 0 Particle.zero = sA1.particles.getD 1 Particle.zero ∧
    (sA2.particles.getD 0 Particle.zero).lifetime = 5 / 2 ∧
    (sA2.particles.getD 0 Particle.zero).lifespan = 10 ∧
    sA2.quadCount = 0 := by
  rw [sA1_eq, sA2_eq]
  norm_num [SA1, SA2, pA1s]


theorem cfgB_rate : cfgB.emitRate = 1 / 2 := by
  norm_num [cfgB, initialise]

theorem cfgB_max : cfgB.maxParticles = 1 := rfl

theorem frameB1 (e : EmitterState) (pf : 0 < cfgB.emitRate)
    (hfd : e.firstDead = 0) (hidx : e.rngIdx = 0) (ht : e.emitTimer = 0)
    (hp : e.particles = [Particle.zero]) (hpos : e.position = ⟨0, 0, 0⟩) :
    update rngB cfgB pf (3 / 5) camA e =
      { e with
          particles := [pB0s]
          firstDead := 1
          rngIdx := 5
          emitTimer := 1 / 10
          emitCalls := e.emitCalls + 1
          vertexData := stagedQuadWrite camA pB0s 0 e.vertexData
          quadCount := 1
          writeLog := e.writeLog ++ [0, 1, 2, 3] } := by
  unfold update
  rw [emitLoop_step _ _ _ _ (by norm_num [ht, cfgB_rate])]
  rw [emit_unsaturated rngB cfgB _ (by norm_num [hfd, cfgB_max])]
  rw [emitLoop_done _ _ _ _ (by norm_num [ht, cfgB_rate])]
  rw [updateLoop_survive cfgB camA (3 / 5) 0 _ (by norm_num [hfd])
      (by norm_num [agedAt, hp, hfd, hidx, emittedParticle, rngB, cfgB, initialise])]
  rw [updateLoop_exit _ _ _ _ _ (by norm_num [surviveStateAt_firstDead, hfd])]
  rw [surviveStateAt]
  norm_num [EmitterState.mk.injEq, survivorAt, agedAt, hp, hfd, hidx, ht, hpos,
    emittedParticle, rngB, cfgB, initialise, cfgB_rate, mixQ, mixV4, pB0s,
    Particle.mk.injEq, Vec3.mk.injEq, Vec4q.mk.injEq]

theorem frameB2 (e : EmitterState) (pf : 0 < cfgB.emitRate)
    (hfd : e.firstDead = 1) (ht : e.emitTimer = 1 / 10)
    (hp : e.particles = [pB0s]) :
    update rngB cfgB pf (2 / 5) camA e =
      { e with
          particles := [pB0r]
          firstDead := 0
          emitTimer := 1 / 2
          quadCount := 0 } := by
  unfold update
  rw [emitLoop_done _ _ _ _ (by norm_num [ht, cfgB_rate])]
  rw [updateLoop_retire cfgB camA (2 / 5) 0 _ (by norm_num [hfd])
      (by norm_num [agedAt, hp, pB0s])]
  rw [updateLoop_exit _ _ _ _ _ (by norm_num [retireStateAt_firstDead, hfd])]
  rw [retireStateAt]
  norm_num [EmitterState.mk.injEq, hp, hfd, ht, agedAt, pB0s, pB0r,
    Particle.mk.injEq, Vec3.mk.injEq, Vec4q.mk.injEq]

theorem sB1_eq : sB1 = SB1 := by
  unfold sB1
  rw [frameB1 sB0 _ rfl rfl rfl rfl rfl]
  rfl

theorem sB2_eq : sB2 = SB2 := by
  unfold sB2
  rw [sB1_eq]
  rw [frameB2 SB1 _ rfl rfl rfl]
  rfl

/-- C4 counterexample: scenario B's particle (lifespan exactly 1) is
retired on the update where its lifetime reaches 1, but with its size still
`16/5` — not the end size 4 — and its colour still `3/5` grey — not the end
colour — because the sweep retires before interpolating. -/
theorem claim_C4_counterexample :
    sB2.firstDead = 0 ∧
    (sB2.particles.getD 0 Particle.zero).lifetime = 1 ∧
    (sB2.particles.getD 0 Particle.zero).lifespan = 1 ∧
    (sB2.particles.getD 0 Particle.zero).size = 16 / 5 ∧
    cfgB.endSize = 4 ∧
    (sB2.particles.getD 0 Particle.zero).size ≠ cfgB.endSize ∧
    (sB2.particles.getD 0 Particle.zero).colour ≠ cfgB.endColour ∧
    sB2.quadCount = 0 := by
  rw [sB2_eq]
  norm_num [SB2, pB0r, cfgB, initialise, Vec4q.mk.injEq]


theorem timerCount_pos (rate : ℚ) (hr : 0 < rate) (t : ℚ) (h : t > rate) :
    timerCount rate hr t = timerCount rate hr (t - rate) + 1 := by
  conv_lhs => rw [timerCount]
  rw [if_pos h]

theorem timerCount_nonpos (rate : ℚ) (hr : 0 < rate) (t : ℚ) (h : ¬t > rate) :
    timerCount rate hr t = 0 := by
  rw [timerCount, if_neg h]

theorem timerRun_pos (rate : ℚ) (hr : 0 < rate) (t : ℚ) (h : t > rate) :
    timerRun rate hr t = timerRun rate hr (t - rate) := by
  conv_lhs => rw [timerRun]
  rw [if_pos h]

theorem timerRun_nonpos (rate : ℚ) (hr : 0 < rate) (t : ℚ) (h : ¬t > rate) :
    timerRun rate hr t = t := by
  rw [timerRun, if_neg h]

theorem emitLoop_calls_timerCount (rng : ℕ → ℚ) (cfg : EmitterConfig)
    (hr : 0 < cfg.emitRate) (e : EmitterState) :
    (emitLoop rng cfg hr e).emitCalls =
      e.emitCalls + timerCount cfg.emitRate hr e.emitTimer := by
  induction e using emitLoop.induct rng cfg hr with
  | case1 e hcond ih =>
      rw [emitLoop, if_pos hcond]
      conv_rhs => rw [timerCount]
      rw [if_pos hcond]
      simp only at ih
      rw [ih]
      omega
  | case2 e hcond =>
      rw [emitLoop, if_neg hcond]
      conv_rhs => rw [timerCount]
      rw [if_neg hcond]
      omega

theorem update_calls_count (rng : ℕ → ℚ) (cfg : EmitterConfig)
    (hr : 0 < cfg.emitRate) (dt : ℚ) (cam : Mat4) (e : EmitterState) :
    (update rng cfg hr dt cam e).emitCalls =
      e.emitCalls + timerCount cfg.emitRate hr (e.emitTimer + dt) := by
  unfold update
  rw [(updateLoop_unchanged cfg cam dt 0 _).2.1]
  exact emitLoop_calls_timerCount rng cfg hr _

theorem update_timer_run (rng : ℕ → ℚ) (cfg : EmitterConfig)
    (hr : 0 < cfg.emitRate) (dt : ℚ) (cam : Mat4) (e : EmitterState) :
    (update rng cfg hr dt cam e).emitTimer =
      timerRun cfg.emitRate hr (e.emitTimer + dt) := by
  unfold update
  rw [(updateLoop_unchanged cfg cam dt 0 _).1]
  exact emitLoop_timer_timerRun rng cfg hr _

theorem cfgC_rate : cfgC.emitRate = 1 / 10 := by
  norm_num [cfgC, initialise]

theorem cfgD_rate : cfgD.emitRate = 1 := by
  norm_num [cfgD, initialise]

/-- C3 counterexample: the spec's own examples fail — the `dt` sequence
`[0.05, 0.05, 0.2]` at interval `0.1` performs 2 emissions, not 3, and a
single `update(1.0)` at interval 1 performs 0 emissions, not 1, because the
emission loop's condition `emitTimer > emitRate` is strict. -/
theorem claim_C3_counterexample : sC.emitCalls = 2 ∧ sD.emitCalls = 0 := by
  constructor
  · unfold sC runUpdates
    rw [List.foldl_cons, List.foldl_cons, List.foldl_cons, List.foldl_nil]
    simp only [update_calls_count, update_timer_run]
    simp only [show sC0.emitTimer = 0 from rfl, show sC0.emitCalls = 0 from rfl,
      cfgC_rate]
    norm_num [timerRun_pos, timerRun_nonpos, timerCount_pos, timerCount_nonpos]
  · unfold sD
    rw [update_calls_count]
    simp only [show sD0.emitTimer = 0 from rfl, show sD0.emitCalls = 0 from rfl,
      cfgD_rate]
    norm_num [timerCount_pos, timerCount_nonpos]


theorem runUpdates_calls_spec (rng : ℕ → ℚ) (cfg : EmitterConfig)
    (hr : 0 < cfg.emitRate) (cam : Mat4) :
    ∀ (dts : List ℚ) (e : EmitterState),
      (∀ x ∈ dts, 0 ≤ x) → 0 ≤ e.emitTimer → e.emitTimer ≤ cfg.emitRate →
      ∃ k : ℕ,
        (runUpdates rng cfg hr cam dts e).emitCalls = e.emitCalls + k ∧
        (runUpdates rng cfg hr cam dts e).emitTimer =
          e.emitTimer + dts.sum - k * cfg.emitRate ∧
        0 ≤ (runUpdates rng cfg hr cam dts e).emitTimer ∧
        (runUpdates rng cfg hr cam dts e).emitTimer ≤ cfg.emitRate ∧
        (0 < e.emitTimer + dts.sum →
          0 < (runUpdates rng cfg hr cam dts e).emitTimer) := by
  intro dts
  induction dts with
  | nil =>
      intro e hdts h0 hR
      have hnil : runUpdates rng cfg hr cam [] e = e := rfl
      refine ⟨0, ?_, ?_, ?_, ?_, ?_⟩ <;> rw [hnil]
      · omega
      · simp
      · exact h0
      · exact hR
      · simp
  | cons dt rest IH =>
      intro e hdts h0 hR
      have hdt : 0 ≤ dt := hdts dt (List.mem_cons_self dt rest)
      have hrest : ∀ x ∈ rest, 0 ≤ x := fun x hx => hdts x (List.mem_cons_of_mem dt hx)
      have hfold : runUpdates rng cfg hr cam (dt :: rest) e =
          runUpdates rng cfg hr cam rest (update rng cfg hr dt cam e) := by
        rw [runUpdates, runUpdates, List.foldl_cons]
      obtain ⟨k1, hT1, hC1, hR1, hNN1, hP1⟩ := update_timer_spec rng cfg hr dt cam e
      have hX0 : 0 ≤ (update rng cfg hr dt cam e).emitTimer :=
        hNN1 (by linarith)
      obtain ⟨k2, hC2, hT2, h02, hR2, hP2⟩ :=
        IH (update rng cfg hr dt cam e) hrest hX0 hR1
      rw [hfold]
      have hsum : 0 ≤ rest.sum := List.sum_nonneg hrest
      refine ⟨k1 + k2, ?_, ?_, h02, hR2, ?_⟩
      · rw [hC2, hC1]; omega
      · rw [hT2, hT1, List.sum_cons]; push_cast; ring
      · intro hpos
        rw [List.sum_cons] at hpos
        rcases hP1 with hx | hx
        · exact hP2 (by linarith)
        · exact hP2 (by rw [hx]; linarith)

/-- The emission count over any sequence of non-negative frame times from a
fresh emitter is determined by the total time alone. -/
theorem runUpdates_calls_ceil (rng : ℕ → ℚ) (cfg : EmitterConfig)
    (hr : 0 < cfg.emitRate) (cam : Mat4) (dts : List ℚ) (e : EmitterState)
    (hdts : ∀ x ∈ dts, 0 ≤ x) (h0 : e.emitTimer = 0) (hc : e.emitCalls = 0) :
    (runUpdates rng cfg hr cam dts e).emitCalls =
      Nat.ceil (dts.sum / cfg.emitRate) - 1 := by
  obtain ⟨k, hC, hT, hNN, hR, hP⟩ :=
    runUpdates_calls_spec rng cfg hr cam dts e hdts (by rw [h0]) (by rw [h0]; exact le_of_lt hr)
  rw [hC, hc, Nat.zero_add]
  rw [h0] at hT hP
  by_cases hS : 0 < dts.sum
  · have hpos : 0 < (runUpdates rng cfg hr cam dts e).emitTimer :=
      hP (by linarith)
    have h1 : (k : ℚ) * cfg.emitRate < dts.sum := by
      rw [hT] at hpos; linarith
    have h2 : dts.sum ≤ (k + 1 : ℚ) * cfg.emitRate := by
      rw [hT] at hR; linarith
    have hceil : Nat.ceil (dts.sum / cfg.emitRate) = k + 1 := by
      rw [Nat.ceil_eq_iff (by omega)]
      constructor
      · push_cast
        rw [lt_div_iff₀ hr]
        simpa using h1
      · rw [div_le_iff₀ hr]
        push_cast
        linarith
    omega
  · have hsum : 0 ≤ dts.sum := List.sum_nonneg hdts
    have hS0 : dts.sum = 0 := le_antisymm (not_lt.mp hS) hsum
    have hk : k = 0 := by
      by_contra hk
      have hk1 : (1 : ℚ) ≤ (k : ℚ) := by exact_mod_cast Nat.one_le_iff_ne_zero.mpr hk
      have : (runUpdates rng cfg hr cam dts e).emitTimer < 0 := by
        rw [hT, hS0]
        nlinarith
      linarith
    rw [hk, hS0]
    norm_num

theorem indexDataFor_length (n : ℕ) : (indexDataFor n).length = 6 * n := by
  induction n with
  | zero => rfl
  | succ n ih =>
      have happ : indexDataFor (n + 1) =
          indexDataFor n ++
            [n * 4, n * 4 + 1, n * 4 + 2, n * 4, n * 4 + 2, n * 4 + 3] := rfl
      rw [happ, List.length_append, ih]
      simp
      omega

theorem indexDataFor_getD (n : ℕ) : ∀ i < n,
    (indexDataFor n).getD (i * 6) 0 = i * 4 ∧
    (indexDataFor n).getD (i * 6 + 1) 0 = i * 4 + 1 ∧
    (indexDataFor n).getD (i * 6 + 2) 0 = i * 4 + 2 ∧
    (indexDataFor n).getD (i * 6 + 3) 0 = i * 4 ∧
    (indexDataFor n).getD (i * 6 + 4) 0 = i * 4 + 2 ∧
    (indexDataFor n).getD (i * 6 + 5) 0 = i * 4 + 3 := by
  induction n with
  | zero => intro i hi; omega
  | succ n ih =>
      intro i hi
      have happ : indexDataFor (n + 1) =
          indexDataFor n ++
            [n * 4, n * 4 + 1, n * 4 + 2, n * 4, n * 4 + 2, n * 4 + 3] := rfl
      rcases Nat.lt_succ_iff_lt_or_eq.mp hi with hlt | heq
      · obtain ⟨g0, g1, g2, g3, g4, g5⟩ := ih i hlt
        have hpre : ∀ k, k ≤ 5 →
            (indexDataFor (n + 1)).getD (i * 6 + k) 0 =
              (indexDataFor n).getD (i * 6 + k) 0 := by
          intro k hk
          rw [happ, List.getD_eq_getElem?_getD,
            List.getElem?_append_left
              (by rw [indexDataFor_length]; omega),
            ← List.getD_eq_getElem?_getD]
        refine ⟨?_, ?_, ?_, ?_, ?_, ?_⟩
        · rw [happ, List.getD_eq_getElem?_getD,
            List.getElem?_append_left (by rw [indexDataFor_length]; omega),
            ← List.getD_eq_getElem?_getD]
          exact g0
        · rw [hpre 1 (by omega)]; exact g1
        · rw [hpre 2 (by omega)]; exact g2
        · rw [hpre 3 (by omega)]; exact g3
        · rw [hpre 4 (by omega)]; exact g4
        · rw [hpre 5 (by omega)]; exact g5
      · subst heq
        have hsuf : ∀ k, k ≤ 5 →
            (indexDataFor (i + 1)).getD (i * 6 + k) 0 =
              ([i * 4, i * 4 + 1, i * 4 + 2, i * 4, i * 4 + 2, i * 4 + 3].getD k 0) := by
          intro k hk
          rw [happ, List.getD_eq_getElem?_getD,
            List.getElem?_append_right
              (by rw [indexDataFor_length]; omega)]
          rw [show i * 6 + k - (indexDataFor i).length = k by
            rw [indexDataFor_length]; omega]
          rw [← List.getD_eq_getElem?_getD]
        refine ⟨?_, ?_, ?_, ?_, ?_, ?_⟩
        · rw [happ, List.getD_eq_getElem?_getD,
            List.getElem?_append_right (by rw [indexDataFor_length]; omega)]
          rw [show i * 6 - (indexDataFor i).length = 0 by
            rw [indexDataFor_length]; omega]
          rfl
        · rw [hsuf 1 (by omega)]; rfl
        · rw [hsuf 2 (by omega)]; rfl
        · rw [hsuf 3 (by omega)]; rfl
        · rw [hsuf 4 (by omega)]; rfl
        · rw [hsuf 5 (by omega)]; rfl
theorem update_indexBuffer (rng : ℕ → ℚ) (cfg : EmitterConfig)
    (hr : 0 < cfg.emitRate) (dt : ℚ) (cam : Mat4) (e : EmitterState) :
    (update rng cfg hr dt cam e).indexBuffer = e.indexBuffer := by
  unfold update
  rw [(updateLoop_unchanged cfg cam dt 0 _).2.2.1]
  exact (emitLoop_unchanged rng cfg hr _).2.2.2.2.1

theorem applyOp_indexBuffer (rng : ℕ → ℚ) (cfg : EmitterConfig)
    (hr : 0 < cfg.emitRate) (op : Op) (e : EmitterState) :
    (applyOp rng cfg hr op e).indexBuffer = e.indexBuffer := by
  cases op with
  | emitOp => exact emit_indexBuffer rng cfg e
  | updateOp dt cam => exact update_indexBuffer rng cfg hr dt cam e
  | drawOp => rfl

theorem applyOps_indexBuffer (rng : ℕ → ℚ) (cfg : EmitterConfig)
    (hr : 0 < cfg.emitRate) : ∀ (ops : List Op) (e : EmitterState),
    (applyOps rng cfg hr ops e).indexBuffer = e.indexBuffer := by
  intro ops
  induction ops with
  | nil => intro e; rfl
  | cons op rest IH =>
      intro e
      have hstep : applyOps rng cfg hr (op :: rest) e =
          applyOps rng cfg hr rest (applyOp rng cfg hr op e) := rfl
      rw [hstep, IH, applyOp_indexBuffer]

theorem applyOp_firstDead_le (rng : ℕ → ℚ) (cfg : EmitterConfig)
    (hr : 0 < cfg.emitRate) (op : Op) (e : EmitterState)
    (h : e.firstDead ≤ cfg.maxParticles) :
    (applyOp rng cfg hr op e).firstDead ≤ cfg.maxParticles := by
  cases op with
  | emitOp => exact emit_firstDead_le rng cfg e h
  | updateOp dt cam => exact update_firstDead_le rng cfg hr dt cam e h
  | drawOp => exact h

theorem applyOps_firstDead_le (rng : ℕ → ℚ) (cfg : EmitterConfig)
    (hr : 0 < cfg.emitRate) : ∀ (ops : List Op) (e : EmitterState),
    e.firstDead ≤ cfg.maxParticles →
    (applyOps rng cfg hr ops e).firstDead ≤ cfg.maxParticles := by
  intro ops
  induction ops with
  | nil => intro e h; exact h
  | cons op rest IH =>
      intro e h
      have hstep : applyOps rng cfg hr (op :: rest) e =
          applyOps rng cfg hr rest (applyOp rng cfg hr op e) := rfl
      rw [hstep]
      exact IH _ (applyOp_firstDead_le rng cfg hr op e h)

theorem billboard_corner_perp (cam : Mat4) (pos : Vec3) (v : Vec4)
    (hz : v.z = 0) :
    Vec3.dot (Vec4.vec3 ((billboardMat cam pos).mulVec v + Vec4.of3 pos) - pos)
      (Vec4.vec3 cam.c3 - pos) = 0 := by
  obtain ⟨vx, vy, vz, vw⟩ := v
  simp only at hz
  subst hz
  simp only [billboardMat, Mat4.mulVec, Vec4.of3, Vec4.vec3, Vec3.cross,
    Vec3.dot, Vec3.normalize, Vec3.sub_def, Vec3.smul_def, Vec4.add4_def,
    Vec4.smul4_def]
  ring
/-- C5: over any sequence of `emit`, `update` and `draw` calls from an
initialised emitter, `firstDead` stays between 0 and the capacity (it is a
`ℕ`, so it cannot go negative); `emit` increments it exactly when it is
below capacity and leaves the state unchanged otherwise; and the sweep can
only decrement it when it is positive — on an empty live range it does
nothing. -/
theorem claim_C5_firstDead_bounds (rng : ℕ → ℚ) (maxP erp : ℕ)
    (lmin lmax vmin vmax ss es : ℚ) (sc ec : Vec4q)
    (hr : 0 < ((initialise maxP erp lmin lmax vmin vmax ss es sc ec).1).emitRate)
    (ops : List Op) :
    (applyOps rng (initialise maxP erp lmin lmax vmin vmax ss es sc ec).1 hr ops
        (initialise maxP erp lmin lmax vmin vmax ss es sc ec).2).firstDead ≤
      (initialise maxP erp lmin lmax vmin vmax ss es sc ec).1.maxParticles ∧
    (∀ e : EmitterState,
      e.firstDead < (initialise maxP erp lmin lmax vmin vmax ss es sc ec).1.maxParticles →
      (emit rng (initialise maxP erp lmin lmax vmin vmax ss es sc ec).1 e).firstDead =
        e.firstDead + 1) ∧
    (∀ e : EmitterState,
      (initialise maxP erp lmin lmax vmin vmax ss es sc ec).1.maxParticles ≤ e.firstDead →
      emit rng (initialise maxP erp lmin lmax vmin vmax ss es sc ec).1 e = e) ∧
    (∀ (cam : Mat4) (dt : ℚ) (i : ℕ) (e : EmitterState), e.firstDead = 0 →
      updateLoop (initialise maxP erp lmin lmax vmin vmax ss es sc ec).1 cam dt i e = e) := by
  refine ⟨applyOps_firstDead_le _ _ _ ops _ (Nat.zero_le _), ?_, ?_, ?_⟩
  · intro e he
    rw [emit_unsaturated _ _ _ he]
  · intro e he
    exact emit_saturated _ _ _ he
  · intro cam dt i e he
    exact updateLoop_exit _ _ _ _ _ (by omega)

/-- C5 witness: the capacity-2 emitter of scenario A under an emit, an
update and a draw. -/
theorem claim_C5_firstDead_bounds_witness :
    0 < ((initialise 2 1 3 10 0 0 2 2 ⟨0, 0, 0, 0⟩ ⟨1, 1, 1, 1⟩).1).emitRate ∧
    ∀ hr : 0 < ((initialise 2 1 3 10 0 0 2 2 ⟨0, 0, 0, 0⟩ ⟨1, 1, 1, 1⟩).1).emitRate,
      (applyOps rngA (initialise 2 1 3 10 0 0 2 2 ⟨0, 0, 0, 0⟩ ⟨1, 1, 1, 1⟩).1 hr
          [Op.emitOp, Op.updateOp 1 camA, Op.drawOp]
          (initialise 2 1 3 10 0 0 2 2 ⟨0, 0, 0, 0⟩ ⟨1, 1, 1, 1⟩).2).firstDead ≤
        (initialise 2 1 3 10 0 0 2 2 ⟨0, 0, 0, 0⟩ ⟨1, 1, 1, 1⟩).1.maxParticles := by
  constructor
  · norm_num [initialise]
  · intro hr
    exact (claim_C5_firstDead_bounds rngA 2 1 3 10 0 0 2 2 ⟨0, 0, 0, 0⟩ ⟨1, 1, 1, 1⟩ hr
      [Op.emitOp, Op.updateOp 1 camA, Op.drawOp]).1

/-- C6: when the pool is saturated (`firstDead` equals the capacity),
`emit()` returns without changing any state; and the emission loop's timer
and iteration count are functions of the timer and interval alone
(`timerRun`/`timerCount`), so the timer is decremented once per scheduled
emission whether or not the pool had room — excess scheduled emissions are
dropped, never accumulated. -/
theorem claim_C6_saturated_emit (rng : ℕ → ℚ) (cfg : EmitterConfig)
    (hr : 0 < cfg.emitRate) :
    (∀ e : EmitterState, e.firstDead = cfg.maxParticles → emit rng cfg e = e) ∧
    (∀ e : EmitterState,
      (emitLoop rng cfg hr e).emitTimer = timerRun cfg.emitRate hr e.emitTimer ∧
      (emitLoop rng cfg hr e).emitCalls =
        e.emitCalls + timerCount cfg.emitRate hr e.emitTimer) := by
  refine ⟨fun e he => emit_saturated rng cfg e (le_of_eq he.symm), fun e => ⟨?_, ?_⟩⟩
  · exact emitLoop_timer_timerRun rng cfg hr e
  · exact emitLoop_calls_timerCount rng cfg hr e

/-- C6 witness: scenario A's saturated state after frame 1. -/
theorem claim_C6_saturated_emit_witness :
    0 < cfgA.emitRate ∧ emit rngA cfgA SA1 = SA1 := by
  have hr : 0 < cfgA.emitRate := by norm_num [cfgA, initialise]
  exact ⟨hr, (claim_C6_saturated_emit rngA cfgA hr).1 SA1 rfl⟩

/-- C7: an unsaturated `emit` claims slot `firstDead`, increments it, and
initialises the new particle with the emitter's anchor position, zero
lifetime, the start colour and size, a lifespan inside the configured range,
and a velocity that is a per-axis-sampled direction, normalized, scaled by a
speed inside the configured range. -/
theorem claim_C7_emit_contract (rng : ℕ → ℚ) (cfg : EmitterConfig)
    (e : EmitterState) (h : e.firstDead < cfg.maxParticles)
    (hls : cfg.lifespanMin ≤ cfg.lifespanMax)
    (hv : cfg.velocityMin ≤ cfg.velocityMax)
    (hrng : ∀ n, 0 ≤ rng n ∧ rng n ≤ 1) :
    (emit rng cfg e).firstDead = e.firstDead + 1 ∧
    (emit rng cfg e).particles =
      e.particles.set e.firstDead (emittedParticle rng cfg e) ∧
    (emittedParticle rng cfg e).position = e.position ∧
    (emittedParticle rng cfg e).lifetime = 0 ∧
    (emittedParticle rng cfg e).colour = cfg.startColour ∧
    (emittedParticle rng cfg e).size = cfg.startSize ∧
    cfg.lifespanMin ≤ (emittedParticle rng cfg e).lifespan ∧
    (emittedParticle rng cfg e).lifespan ≤ cfg.lifespanMax ∧
    ∃ speed : ℚ, ∃ dir : Vec3,
      cfg.velocityMin ≤ speed ∧ speed ≤ cfg.velocityMax ∧
      (emittedParticle rng cfg e).velocity = ((speed : ℚ) : ℝ) • Vec3.normalize dir := by
  obtain ⟨hr0, hr1⟩ := hrng e.rngIdx
  obtain ⟨hs0, hs1⟩ := hrng (e.rngIdx + 1)
  refine ⟨by rw [emit_unsaturated rng cfg e h], by rw [emit_unsaturated rng cfg e h],
    rfl, rfl, rfl, rfl, ?_, ?_, ?_⟩
  · show cfg.lifespanMin ≤
      rng e.rngIdx * (cfg.lifespanMax - cfg.lifespanMin) + cfg.lifespanMin
    nlinarith
  · show rng e.rngIdx * (cfg.lifespanMax - cfg.lifespanMin) + cfg.lifespanMin ≤
      cfg.lifespanMax
    nlinarith
  · refine ⟨rng (e.rngIdx + 1) * (cfg.velocityMax - cfg.velocityMin) + cfg.velocityMin,
      ⟨((rng (e.rngIdx + 2) * 2 - 1 : ℚ) : ℝ),
       ((rng (e.rngIdx + 3) * 2 - 1 : ℚ) : ℝ),
       ((rng (e.rngIdx + 4) * 2 - 1 : ℚ) : ℝ)⟩, ?_, ?_, rfl⟩
    · nlinarith
    · nlinarith

/-- C7 witness: emitting into scenario B's fresh capacity-1 emitter. -/
theorem claim_C7_emit_contract_witness :
    sB0.firstDead < cfgB.maxParticles ∧
    (emit rngB cfgB sB0).firstDead = sB0.firstDead + 1 ∧
    cfgB.lifespanMin ≤ (emittedParticle rngB cfgB sB0).lifespan ∧
    (emittedParticle rngB cfgB sB0).lifespan ≤ cfgB.lifespanMax := by
  have h : sB0.firstDead < cfgB.maxParticles := by norm_num [sB0, cfgB, initialise]
  have hc := claim_C7_emit_contract rngB cfgB sB0 h
    (by norm_num [cfgB, initialise]) (by norm_num [cfgB, initialise])
    (fun n => by norm_num [rngB])
  exact ⟨h, hc.1, hc.2.2.2.2.2.2.1, hc.2.2.2.2.2.2.2.1⟩

/-- C9: every synthesized billboard quad vertex of a particle lies in the
plane through the particle position perpendicular to the camera-to-particle
vector (the hypotheses state the claim's non-degeneracy conditions: the
camera is away from the particle and the camera up is not parallel to the
view direction, which make that plane and the quad non-degenerate). -/
theorem claim_C9_billboard_plane (cam : Mat4) (p : Particle)
    (hd : Vec4.vec3 cam.c3 - p.position ≠ ⟨0, 0, 0⟩)
    (hup : Vec3.cross (Vec4.vec3 cam.c1) (Vec4.vec3 cam.c3 - p.position) ≠ ⟨0, 0, 0⟩) :
    ∀ k < 4,
      Vec3.dot (Vec4.vec3 (synthVert cam p k).position - p.position)
        (Vec4.vec3 cam.c3 - p.position) = 0 := by
  intro k hk
  have hz : (localVert p k).position.z = 0 := by
    rcases k with _ | _ | _ | k <;> rfl
  exact billboard_corner_perp cam p.position (localVert p k).position hz

/-- C9 witness: a stationary particle at the origin directly in front of the
camera at `(0,0,1)`, camera up equal to world up. -/
theorem claim_C9_billboard_plane_witness :
    (Vec4.vec3 camA.c3 - Particle.zero.position ≠ ⟨0, 0, 0⟩) ∧
    (Vec3.cross (Vec4.vec3 camA.c1)
        (Vec4.vec3 camA.c3 - Particle.zero.position) ≠ ⟨0, 0, 0⟩) ∧
    ∀ k < 4,
      Vec3.dot
        (Vec4.vec3 (synthVert camA Particle.zero k).position - Particle.zero.position)
        (Vec4.vec3 camA.c3 - Particle.zero.position) = 0 := by
  have h1 : Vec4.vec3 camA.c3 - Particle.zero.position ≠ ⟨0, 0, 0⟩ := by
    norm_num [camA, Particle.zero, Vec4.vec3, Vec3.mk.injEq]
  have h2 : Vec3.cross (Vec4.vec3 camA.c1)
      (Vec4.vec3 camA.c3 - Particle.zero.position) ≠ ⟨0, 0, 0⟩ := by
    norm_num [camA, Particle.zero, Vec4.vec3, Vec3.cross, Vec3.mk.injEq]
  exact ⟨h1, h2, claim_C9_billboard_plane camA Particle.zero h1 h2⟩

/-- C10: every staging-array write the sweep performs lands at a record
index `quad * 4 + k` with `k < 4` and `quad < maxParticles`, so no write
falls outside the `maxParticles * 4` records allocated at `initialise`
(stated via the ghost write log of one `update` call). -/
theorem claim_C10_staging_writes_in_bounds (rng : ℕ → ℚ) (cfg : EmitterConfig)
    (hr : 0 < cfg.emitRate) (dt : ℚ) (cam : Mat4) (e : EmitterState)
    (h1 : e.firstDead ≤ cfg.maxParticles) (h2 : e.writeLog = []) :
    ∀ x ∈ (update rng cfg hr dt cam e).writeLog, x < 4 * cfg.maxParticles := by
  unfold update
  intro x hx
  refine updateLoop_writeLog_fuel cfg cam dt _ 0 _ (le_refl _) (le_of_eq rfl)
    ?_ ?_ x hx
  · exact emitLoop_firstDead_le rng cfg hr _ h1
  · intro y hy
    have hy2 : y ∈ e.writeLog := by
      have hlog := (emitLoop_unchanged rng cfg hr
        { e with emitTimer := e.emitTimer + dt }).2.2.2.2.2.2
      exact hlog ▸ hy
    rw [h2] at hy2
    exact absurd hy2 (List.not_mem_nil y)

/-- C10 witness: one update of scenario B's fresh emitter. -/
theorem claim_C10_staging_writes_in_bounds_witness :
    cfgB.maxParticles = 1 ∧
    ∀ x ∈ (update rngB cfgB (by norm_num [cfgB, initialise]) (3 / 5) camA
        sB0).writeLog,
      x < 4 * cfgB.maxParticles :=
  ⟨rfl,
   claim_C10_staging_writes_in_bounds rngB cfgB (by norm_num [cfgB, initialise])
     (3 / 5) camA sB0 (by norm_num [sB0, cfgB, initialise]) rfl⟩
theorem updateLoop_particles_lt_fuel (cfg : EmitterConfig) (cam : Mat4) (dt : ℚ) :
    ∀ (n i : ℕ) (e : EmitterState), e.firstDead - i ≤ n → ∀ m < i,
      (updateLoop cfg cam dt i e).particles.getD m Particle.zero =
        e.particles.getD m Particle.zero := by
  intro n
  induction n with
  | zero =>
      intro i e hn m hm
      rw [updateLoop_exit cfg cam dt i e (by omega)]
  | succ n IH =>
      intro i e hn m hm
      by_cases hi : i < e.firstDead
      · by_cases hd : (agedAt dt i e).lifetime ≥ (agedAt dt i e).lifespan
        · rw [updateLoop_retire cfg cam dt i e hi hd]
          have hfd : (retireStateAt dt i e).firstDead = e.firstDead - 1 := rfl
          rw [IH (i + 1) (retireStateAt dt i e) (by omega) m (by omega)]
          rw [retireStateAt_particles]
          rw [listGetD_set_ne (by omega), listGetD_set_ne (by omega)]
        · rw [updateLoop_survive cfg cam dt i e hi hd]
          have hfd : (surviveStateAt cfg cam dt i e).firstDead = e.firstDead := rfl
          rw [IH (i + 1) (surviveStateAt cfg cam dt i e) (by omega) m (by omega)]
          rw [surviveStateAt_particles]
          rw [listGetD_set_ne (by omega), listGetD_set_ne (by omega)]
      · rw [updateLoop_exit cfg cam dt i e hi]

/-- C8: `draw()` issues a sub-range upload of exactly the first
`firstDead * 4` staging records into the device vertex buffer (entries at or
beyond `firstDead * 4` keep their previous device contents) together with one
indexed draw of `firstDead * 6` indices; with `firstDead = 0` the device
buffer is untouched and zero vertices and zero indices are drawn; and the
index buffer is the fixed pattern `4i, 4i+1, 4i+2, 4i, 4i+2, 4i+3` filled
for all `maxParticles` quad slots at `initialise` and never modified by any
later `emit`, `update` or `draw`. -/
theorem claim_C8_draw_contract :
    (∀ e : EmitterState,
      (draw e).2 = ⟨e.firstDead * 4, e.firstDead * 6⟩ ∧
      (draw e).1.deviceVB =
        e.vertexData.take (e.firstDead * 4) ++ e.deviceVB.drop (e.firstDead * 4) ∧
      (e.firstDead * 4 ≤ e.vertexData.length →
        (∀ j < e.firstDead * 4,
          (draw e).1.deviceVB.getD j ParticleVertex.zero =
            e.vertexData.getD j ParticleVertex.zero) ∧
        (∀ j, e.firstDead * 4 ≤ j →
          (draw e).1.deviceVB.getD j ParticleVertex.zero =
            e.deviceVB.getD j ParticleVertex.zero)) ∧
      (e.firstDead = 0 → (draw e).1 = e ∧ (draw e).2 = ⟨0, 0⟩)) ∧
    (∀ (maxP erp : ℕ) (lmin lmax vmin vmax ss es : ℚ) (sc ec : Vec4q),
      (initialise maxP erp lmin lmax vmin vmax ss es sc ec).2.indexBuffer =
        indexDataFor maxP ∧
      (indexDataFor maxP).length = 6 * maxP) ∧
    (∀ n : ℕ, ∀ i < n,
      (indexDataFor n).getD (i * 6) 0 = i * 4 ∧
      (indexDataFor n).getD (i * 6 + 1) 0 = i * 4 + 1 ∧
      (indexDataFor n).getD (i * 6 + 2) 0 = i * 4 + 2 ∧
      (indexDataFor n).getD (i * 6 + 3) 0 = i * 4 ∧
      (indexDataFor n).getD (i * 6 + 4) 0 = i * 4 + 2 ∧
      (indexDataFor n).getD (i * 6 + 5) 0 = i * 4 + 3) ∧
    (∀ (rng : ℕ → ℚ) (cfg : EmitterConfig) (hr : 0 < cfg.emitRate)
      (ops : List Op) (e : EmitterState),
      (applyOps rng cfg hr ops e).indexBuffer = e.indexBuffer) := by
  refine ⟨fun e => ⟨rfl, rfl, fun hlen => ⟨?_, ?_⟩, fun h0 => ⟨?_, ?_⟩⟩,
    fun maxP erp lmin lmax vmin vmax ss es sc ec =>
      ⟨rfl, indexDataFor_length maxP⟩,
    indexDataFor_getD, applyOps_indexBuffer⟩
  · intro j hj
    show (e.vertexData.take (e.firstDead * 4) ++
        e.deviceVB.drop (e.firstDead * 4)).getD j ParticleVertex.zero =
      e.vertexData.getD j ParticleVertex.zero
    rw [List.getD_eq_getElem?_getD,
      List.getElem?_append_left (by rw [List.length_take]; omega),
      List.getElem?_take_of_lt hj, ← List.getD_eq_getElem?_getD]
  · intro j hj
    show (e.vertexData.take (e.firstDead * 4) ++
        e.deviceVB.drop (e.firstDead * 4)).getD j ParticleVertex.zero =
      e.deviceVB.getD j ParticleVertex.zero
    rw [List.getD_eq_getElem?_getD,
      List.getElem?_append_right (by rw [List.length_take]; omega),
      List.getElem?_drop]
    rw [show e.firstDead * 4 +
          (j - (e.vertexData.take (e.firstDead * 4)).length) = j by
        rw [List.length_take]; omega]
    rw [← List.getD_eq_getElem?_getD]
  · show { e with
        deviceVB := e.vertexData.take (e.firstDead * 4) ++
          e.deviceVB.drop (e.firstDead * 4) } = e
    rw [show e.firstDead * 4 = 0 by omega]
    simp
  · show (⟨e.firstDead * 4, e.firstDead * 6⟩ : DrawCall) = ⟨0, 0⟩
    rw [h0]

/-- C1 (amended): after `update()`, only the first `quadCount * 4` staging
records — the quads written this frame — are guaranteed to describe
currently-live particles; `quadCount ≤ firstDead` always holds, but because
every retirement shrinks `firstDead` by one while leaving the staging
prefix bound `quadCount` behind, the stated range `[0, firstDead*4)` can
retain stale quads of previously retired particles (see the
counterexample). -/
theorem claim_C1_amended (rng : ℕ → ℚ) (cfg : EmitterConfig)
    (hr : 0 < cfg.emitRate) (dt : ℚ) (cam : Mat4) (e : EmitterState)
    (h1 : e.firstDead ≤ cfg.maxParticles)
    (h2 : cfg.maxParticles ≤ e.particles.length)
    (h3 : 4 * cfg.maxParticles ≤ e.vertexData.length) :
    (update rng cfg hr dt cam e).quadCount ≤
      (update rng cfg hr dt cam e).firstDead ∧
    FreshPrefix cam (update rng cfg hr dt cam e) := by
  unfold update
  obtain ⟨hvd, hqc, hpl, -, -, -, -⟩ :=
    emitLoop_unchanged rng cfg hr { e with emitTimer := e.emitTimer + dt }
  have hF : (emitLoop rng cfg hr
      { e with emitTimer := e.emitTimer + dt }).firstDead ≤ cfg.maxParticles :=
    emitLoop_firstDead_le rng cfg hr _ h1
  exact updateLoop_fresh_fuel cfg cam dt
    (emitLoop rng cfg hr { e with emitTimer := e.emitTimer + dt }).firstDead 0
    { emitLoop rng cfg hr { e with emitTimer := e.emitTimer + dt } with
        quadCount := 0 }
    (Nat.sub_le _ _)
    (Nat.zero_le 0)
    (Nat.zero_le _)
    (by
      show (emitLoop rng cfg hr { e with emitTimer := e.emitTimer + dt }).firstDead ≤
        (emitLoop rng cfg hr { e with emitTimer := e.emitTimer + dt }).particles.length
      rw [hpl]
      exact le_trans hF h2)
    (by
      show 4 * (emitLoop rng cfg hr { e with emitTimer := e.emitTimer + dt }).firstDead ≤
        (emitLoop rng cfg hr { e with emitTimer := e.emitTimer + dt }).vertexData.length
      rw [hvd]
      have h3' : 4 * cfg.maxParticles ≤
          ({ e with emitTimer := e.emitTimer + dt } : EmitterState).vertexData.length := h3
      omega)
    (fun j hj => absurd hj (Nat.not_lt_zero j))

/-- C1 amended witness: one frame of scenario B. -/
theorem claim_C1_amended_witness :
    (update rngB cfgB (by norm_num [cfgB, initialise]) (3 / 5) camA sB0).quadCount ≤
      (update rngB cfgB (by norm_num [cfgB, initialise]) (3 / 5) camA sB0).firstDead ∧
    FreshPrefix camA
      (update rngB cfgB (by norm_num [cfgB, initialise]) (3 / 5) camA sB0) :=
  claim_C1_amended rngB cfgB (by norm_num [cfgB, initialise]) (3 / 5) camA sB0
    (by norm_num [sB0, cfgB, initialise])
    (by norm_num [sB0, cfgB, initialise, List.length_replicate])
    (by norm_num [sB0, cfgB, initialise, List.length_replicate])

/-- C2 (amended): when the aged particle at slot `i` retires, the sweep
overwrites slot `i` with the (not yet aged) particle from slot
`firstDead - 1`, decrements `firstDead`, and continues at `i + 1` without
re-examining slot `i`; when `i < firstDead - 1`, the swapped-in replacement
therefore keeps its pre-frame state through the rest of the pass — it is
neither aged, nor moved, nor staged this frame (the replacement IS skipped,
contrary to the spec; the missing re-examination is the absent `i--`). -/
theorem claim_C2_amended (cfg : EmitterConfig) (cam : Mat4) (dt : ℚ) (i : ℕ)
    (e : EmitterState) (hi : i < e.firstDead)
    (hd : (agedAt dt i e).lifespan ≤ (agedAt dt i e).lifetime)
    (hlen : e.firstDead ≤ e.particles.length)
    (hne : i < e.firstDead - 1) :
    updateLoop cfg cam dt i e =
      updateLoop cfg cam dt (i + 1) (retireStateAt dt i e) ∧
    (retireStateAt dt i e).firstDead = e.firstDead - 1 ∧
    (retireStateAt dt i e).particles.getD i Particle.zero =
      e.particles.getD (e.firstDead - 1) Particle.zero ∧
    (updateLoop cfg cam dt i e).particles.getD i Particle.zero =
      e.particles.getD (e.firstDead - 1) Particle.zero ∧
    (retireStateAt dt i e).quadCount = e.quadCount ∧
    (retireStateAt dt i e).vertexData = e.vertexData := by
  have hstep := updateLoop_retire cfg cam dt i e hi hd
  have hslot : (retireStateAt dt i e).particles.getD i Particle.zero =
      e.particles.getD (e.firstDead - 1) Particle.zero := by
    rw [retireStateAt_particles,
      listGetD_set_eq (by rw [List.length_set]; omega),
      listGetD_set_ne (by omega)]
  have hloop : (updateLoop cfg cam dt i e).particles.getD i Particle.zero =
      (retireStateAt dt i e).particles.getD i Particle.zero := by
    rw [hstep]
    exact updateLoop_particles_lt_fuel cfg cam dt
      (retireStateAt dt i e).firstDead (i + 1) (retireStateAt dt i e)
      (Nat.sub_le _ _) i (Nat.lt_succ_self i)
  exact ⟨hstep, rfl, hslot, hloop.trans hslot, rfl, rfl⟩

/-- C2 amended witness: scenario A's frame-2 retirement of slot 0. -/
theorem claim_C2_amended_witness :
    (updateLoop cfgA camA 1 0 SA1).particles.getD 0 Particle.zero =
      SA1.particles.getD (SA1.firstDead - 1) Particle.zero :=
  (claim_C2_amended cfgA camA 1 0 SA1 (by norm_num [SA1])
    (by norm_num [agedAt, SA1, pA0s, List.getD_cons_zero])
    (by norm_num [SA1]) (by norm_num [SA1])).2.2.2.1

/-- C3 (amended): over any sequence of non-negative frame times from a
freshly initialised emitter, the number of `emit()` calls equals
`⌈T / I⌉ - 1`, not `⌊T / I⌋`: the loop condition is the strict
`emitTimer > emitRate`, so an emission falling exactly on an interval
boundary is deferred to the next frame; in particular the `dt` sequence
`[0.05, 0.05, 0.2]` at interval `0.1` yields 2 emissions (not the spec's 3)
and a single `update(1.0, …)` at interval 1 yields 0 emissions (not 1).
The count is still independent of how the total time is split. -/
theorem claim_C3_amended (rng : ℕ → ℚ) (maxP erp : ℕ)
    (lmin lmax vmin vmax ss es : ℚ) (sc ec : Vec4q) (cam : Mat4)
    (dts : List ℚ)
    (hr : 0 < (initialise maxP erp lmin lmax vmin vmax ss es sc ec).1.emitRate)
    (hdts : ∀ x ∈ dts, 0 ≤ x) :
    (runUpdates rng (initialise maxP erp lmin lmax vmin vmax ss es sc ec).1 hr
        cam dts
        (initialise maxP erp lmin lmax vmin vmax ss es sc ec).2).emitCalls =
      Nat.ceil (dts.sum /
        (initialise maxP erp lmin lmax vmin vmax ss es sc ec).1.emitRate) - 1 :=
  runUpdates_calls_ceil rng _ hr cam dts _ hdts rfl rfl

/-- C3 amended witness: the spec's catch-up sequence `[0.05, 0.05, 0.2]`
at interval `0.1`. -/
theorem claim_C3_amended_witness :
    (runUpdates rngC cfgC (by norm_num [cfgC, initialise]) camA
        [1 / 20, 1 / 20, 1 / 5] sC0).emitCalls =
      Nat.ceil (([1 / 20, 1 / 20, 1 / 5] : List ℚ).sum / cfgC.emitRate) - 1 :=
  claim_C3_amended rngC 100 10 0 0 0 0 1 1 ⟨0, 0, 0, 0⟩ ⟨0, 0, 0, 0⟩
    camA [1 / 20, 1 / 20, 1 / 5] (by norm_num [initialise])
    (by intro x hx; fin_cases hx <;> norm_num)

/-- C4 (amended): on the update in which a particle's lifetime first
reaches its lifespan the sweep retires it immediately, before the
interpolation step: no geometry is staged for it and its size and colour
are never set to the end values (its record is simply overwritten), so a
particle with lifespan 1 never exactly attains `endSize`/`endColour`; a
particle that survives gets `size = mix(startSize, endSize, t)` and
`colour = mix(startColour, endColour, t)` with `t = lifetime / lifespan`. -/
theorem claim_C4_amended (cfg : EmitterConfig) (cam : Mat4) (dt : ℚ) (i : ℕ)
    (e : EmitterState) (hi : i < e.firstDead) :
    ((agedAt dt i e).lifespan ≤ (agedAt dt i e).lifetime →
      updateLoop cfg cam dt i e =
        updateLoop cfg cam dt (i + 1) (retireStateAt dt i e) ∧
      (retireStateAt dt i e).firstDead = e.firstDead - 1 ∧
      (retireStateAt dt i e).vertexData = e.vertexData ∧
      (retireStateAt dt i e).quadCount = e.quadCount) ∧
    ((agedAt dt i e).lifetime < (agedAt dt i e).lifespan →
      updateLoop cfg cam dt i e =
        updateLoop cfg cam dt (i + 1) (surviveStateAt cfg cam dt i e) ∧
      (survivorAt cfg dt i e).size =
        mixQ cfg.startSize cfg.endSize
          ((agedAt dt i e).lifetime / (agedAt dt i e).lifespan) ∧
      (survivorAt cfg dt i e).colour =
        mixV4 cfg.startColour cfg.endColour
          ((agedAt dt i e).lifetime / (agedAt dt i e).lifespan) ∧
      (surviveStateAt cfg cam dt i e).quadCount = e.quadCount + 1) := by
  constructor
  · intro hd
    exact ⟨updateLoop_retire cfg cam dt i e hi hd, rfl, rfl, rfl⟩
  · intro hs
    exact ⟨updateLoop_survive cfg cam dt i e hi (not_le.mpr hs), rfl, rfl, rfl⟩

/-- C4 amended witness: scenario B's particle reaching lifetime exactly
its lifespan 1 in frame 2. -/
theorem claim_C4_amended_witness :
    (agedAt (2 / 5) 0 SB1).lifespan ≤ (agedAt (2 / 5) 0 SB1).lifetime ∧
    updateLoop cfgB camA (2 / 5) 0 SB1 =
      updateLoop cfgB camA (2 / 5) 1 (retireStateAt (2 / 5) 0 SB1) ∧
    (retireStateAt (2 / 5) 0 SB1).vertexData = SB1.vertexData ∧
    (retireStateAt (2 / 5) 0 SB1).quadCount = SB1.quadCount := by
  have hd : (agedAt (2 / 5) 0 SB1).lifespan ≤ (agedAt (2 / 5) 0 SB1).lifetime := by
    norm_num [agedAt, SB1, pB0s, List.getD_cons_zero]
  have h := (claim_C4_amended cfgB camA (2 / 5) 0 SB1 (by norm_num [SB1])).1 hd
  exact ⟨hd, h.1, h.2.2.1, h.2.2.2⟩
end ParticleEmitter

end
